import Mathlib

/-!
Verification of the contourguessr-api read-through refresh cache core.

This file shallowly embeds the Go code of `repos/challenge_id.go` and
`repos/repos.go` (the second, current version of the file) into Lean and
proves properties stated in the specification.

Conventions of the embedding:
* Go `int` is modelled as `Int` (64-bit overflow never occurs in the modelled
  code paths); Go `uint32`/byte values are `Nat` with explicit `% 256` where
  Go's byte arithmetic truncates.
* A Go `panic` is modelled as a distinguished result (`Option.none` for the
  codec, a `panicked` constructor for the loaders, `panicIntn` for
  `rand.Intn` on a non-positive bound).
* Go strings are Lean `String`s except for HTTP bodies, which are byte lists
  (`List Nat`), matching Go's `[]byte` before `string(...)` conversion
  (a Go string conversion copies the bytes verbatim).
* Go maps are modelled as `AList`s (association lists with distinct keys);
  key iteration order is modelled as entry order, which is a determinization
  of Go's randomized map order — no theorem below depends on that order.
-/

namespace ContourGuessr

/-! ## ID codec (`repos/challenge_id.go`)

`var encoding = base32.NewEncoding("abcdefghijklmnopqrstuvwxyz234567").WithPadding(base32.NoPadding)`
`var endianness = binary.BigEndian`

The base32 encoder/decoder below is translated from Go's `encoding/base32`
(standard library), specialized to `NoPadding`:
* `Encode` packs source bytes into 5-bit symbols per the `switch len(src)`
  unpacking with `fallthrough` (cases 1–4 and the full 5-byte quantum).
* `DecodeString` first strips `'\r'` and `'\n'` (`stripNewlines`), maps each
  remaining character through the decode map (failing with
  `CorruptInputError(index)` at the first invalid character), and packs each
  8-symbol quantum into 5 bytes; a final partial quantum of length 2, 4, 5
  or 7 yields 1–4 bytes per the `switch dlen` with `fallthrough` (other
  partial lengths yield no bytes, as in the Go source's switch).
-/

deriving instance DecidableEq for Except

def alphabetChars : List Char := "abcdefghijklmnopqrstuvwxyz234567".data

/-- Go's `enc.encode[v&31]`: the character for a 5-bit symbol value. -/
def symChar (v : Nat) : Char := alphabetChars.getD (v &&& 31) 'a'

/-- Go's `enc.decodeMap` lookup: `some` index in the alphabet, `none` for
0xFF (invalid character). -/
def alphaIndex (c : Char) : Option Nat := alphabetChars.findIdx? (fun x => x == c)

/-- One quantum of Go's base32 `Encode` unpacking switch (on `len(src)`,
with `fallthrough`); byte shifts truncate mod 256 before masking. -/
def encodeChunkSyms (src : List Nat) : List Nat :=
  match src with
  | [] => []
  | [s0] =>
      [s0 >>> 3,
       ((s0 <<< 2) % 256) &&& 31]
  | [s0, s1] =>
      [s0 >>> 3,
       ((s1 >>> 6) &&& 31) ||| (((s0 <<< 2) % 256) &&& 31),
       (s1 >>> 1) &&& 31,
       ((s1 <<< 4) % 256) &&& 31]
  | [s0, s1, s2] =>
      [s0 >>> 3,
       ((s1 >>> 6) &&& 31) ||| (((s0 <<< 2) % 256) &&& 31),
       (s1 >>> 1) &&& 31,
       ((s2 >>> 4) &&& 31) ||| (((s1 <<< 4) % 256) &&& 31),
       ((s2 <<< 1) % 256) &&& 31]
  | [s0, s1, s2, s3] =>
      [s0 >>> 3,
       ((s1 >>> 6) &&& 31) ||| (((s0 <<< 2) % 256) &&& 31),
       (s1 >>> 1) &&& 31,
       ((s2 >>> 4) &&& 31) ||| (((s1 <<< 4) % 256) &&& 31),
       (s3 >>> 7) ||| (((s2 <<< 1) % 256) &&& 31),
       (s3 >>> 2) &&& 31,
       ((s3 <<< 3) % 256) &&& 31]
  | s0 :: s1 :: s2 :: s3 :: s4 :: _ =>
      [s0 >>> 3,
       ((s1 >>> 6) &&& 31) ||| (((s0 <<< 2) % 256) &&& 31),
       (s1 >>> 1) &&& 31,
       ((s2 >>> 4) &&& 31) ||| (((s1 <<< 4) % 256) &&& 31),
       (s3 >>> 7) ||| (((s2 <<< 1) % 256) &&& 31),
       (s3 >>> 2) &&& 31,
       (s4 >>> 5) ||| (((s3 <<< 3) % 256) &&& 31),
       s4 &&& 31]

/-- Go's base32 `Encode` loop: one quantum of up to 5 source bytes at a
time (`src = src[5:]`); with `NoPadding` the final partial quantum emits
only its `ceil(8*n/5)` symbols. The fuel argument (instantiated with the
list length) only makes the recursion structural. -/
def encodeSymbolsAux : Nat → List Nat → List Nat
  | _, [] => []
  | 0, l => encodeChunkSyms l
  | fuel + 1, l =>
      if 5 < l.length then encodeChunkSyms (l.take 5) ++ encodeSymbolsAux fuel (l.drop 5)
      else encodeChunkSyms l

def encodeSymbols (l : List Nat) : List Nat := encodeSymbolsAux l.length l

def symsToString (syms : List Nat) : String := String.mk (syms.map symChar)

/-- Go's `binary.BigEndian.PutUint32`: the 4 bytes of `n`, most significant
first (each `byte(...)` conversion truncates mod 256). -/
def putUint32BE (n : Nat) : List Nat :=
  [(n >>> 24) % 256, (n >>> 16) % 256, (n >>> 8) % 256, n % 256]

/-- The function `encodeChallengeID` (challenge_id.go:11–24). The out-of-bounds guard
`id <= 0 || id >= 0xFFFFFFFF` panics in Go; the panic is modelled as
`none`. The `for bytes[0] == 0 { bytes = bytes[1:] }` loop strips leading
zero bytes (the guard guarantees at least one nonzero byte remains). -/
def encodeChallengeID (id : Int) : Option String :=
  if id ≤ 0 ∨ 4294967295 ≤ id then none
  else
    let bytes := (putUint32BE id.toNat).dropWhile (fun b => b == 0)
    some (symsToString (encodeSymbols bytes))

/-- Map characters to 5-bit symbol values, left to right; the error is Go's
`CorruptInputError` carrying the index of the first invalid character
(in the newline-stripped input): `olen - len(src) - 1`. -/
def mapSymbols : List Char → Nat → Except Nat (List Nat)
  | [], _ => .ok []
  | c :: rest, i =>
    match alphaIndex c with
    | none => .error i
    | some v =>
      match mapSymbols rest (i + 1) with
      | .error j => .error j
      | .ok vs => .ok (v :: vs)

/-- Go's base32 decode `switch dlen` (with `fallthrough`) packing one
quantum of up to 8 symbols into up to 5 bytes; byte shifts truncate
mod 256. Partial lengths other than 2, 4, 5, 7 produce no bytes, exactly
as the Go switch (which has no case for them). -/
def packChunk (d : List Nat) : List Nat :=
  let g := fun i => d.getD i 0
  let b0 := ((g 0 <<< 3) % 256) ||| (g 1 >>> 2)
  let b1 := ((g 1 <<< 6) % 256) ||| ((g 2 <<< 1) % 256) ||| (g 3 >>> 4)
  let b2 := ((g 3 <<< 4) % 256) ||| (g 4 >>> 1)
  let b3 := ((g 4 <<< 7) % 256) ||| ((g 5 <<< 2) % 256) ||| (g 6 >>> 3)
  let b4 := ((g 6 <<< 5) % 256) ||| g 7
  if d.length = 8 then [b0, b1, b2, b3, b4]
  else if d.length = 7 then [b0, b1, b2, b3]
  else if d.length = 5 then [b0, b1, b2]
  else if d.length = 4 then [b0, b1]
  else if d.length = 2 then [b0]
  else []

def packSymbolsAux : Nat → List Nat → List Nat
  | _, [] => []
  | 0, l => packChunk l
  | fuel + 1, l =>
      if 8 < l.length then packChunk (l.take 8) ++ packSymbolsAux fuel (l.drop 8)
      else packChunk l

def packSymbols (l : List Nat) : List Nat := packSymbolsAux l.length l

/-- The loop `for len(bytes) < 4` prepending zero bytes (challenge_id.go:31–33). -/
def padTo4 (bytes : List Nat) : List Nat :=
  List.replicate (4 - bytes.length) 0 ++ bytes

/-- Go's `binary.BigEndian.Uint32`: big-endian 32-bit value of the first four
bytes (the Go function reads exactly `b[0..3]`). -/
def uint32BE (l : List Nat) : Nat :=
  l.getD 0 0 * 16777216 + l.getD 1 0 * 65536 + l.getD 2 0 * 256 + l.getD 3 0

/-- The function `decodeChallengeID` (challenge_id.go:26–35). Go's
`encoding.DecodeString` strips `'\r'`/`'\n'` first (`stripNewlines`), then
decodes; on error `decodeChallengeID` returns it unchanged. -/
def decodeChallengeID (s : String) : Except Nat Int :=
  let stripped := s.data.filter (fun c => !(c == '\r') && !(c == '\n'))
  match mapSymbols stripped 0 with
  | .error i => .error i
  | .ok syms => .ok ((uint32BE (padTo4 (packSymbols syms)) : Nat) : Int)

/-! ## Data model (`repos/repos.go`)

Struct fields follow the Go declarations. Go `float64` payloads are carried
opaquely by bit pattern (`GoFloat64`): no modelled code path performs float
arithmetic or comparison, values are only scanned from rows and copied.
`time.Time` is likewise opaque (`GoTime`). Go maps keyed by `int` are
association lists with distinct keys (`GoMap`). -/

structure GoFloat64 where
  bits : Nat
deriving DecidableEq, Repr

structure GoTime where
  unixNano : Int
deriving DecidableEq, Repr

abbrev GoMap (α : Type) := AList (fun _ : Int => α)

structure PictureSrc where
  src : String
  width : Int
  height : Int
deriving DecidableEq, Repr

structure ChallengeGeo where
  lng : GoFloat64
  lat : GoFloat64
deriving DecidableEq, Repr

structure ChallengeSrcSet where
  preview : PictureSrc
  regular : PictureSrc
  large : PictureSrc
deriving DecidableEq, Repr

structure Photographer where
  icon : String
  text : String
  link : String
deriving DecidableEq, Repr

structure ChallengeR where
  x : GoFloat64
  y : GoFloat64
deriving DecidableEq, Repr

structure Challenge where
  id : String
  regionID : String
  geo : ChallengeGeo
  title : String
  descriptionHTML : String
  dateTaken : Option GoTime
  link : String
  src : ChallengeSrcSet
  photographer : Photographer
  r : ChallengeR
deriving DecidableEq, Repr

structure MapLayer where
  id : String
  name : String
  capabilitiesXML : String
  layer : String
  matrixSet : String
  resolutions : List GoFloat64
  defaultResolution : GoFloat64
  osBranding : Bool
  extraAttributions : List String
deriving DecidableEq, Repr

structure RegionBBox where
  minLng : GoFloat64
  maxLng : GoFloat64
  maxLat : GoFloat64
  minLat : GoFloat64
deriving DecidableEq, Repr

structure Region where
  id : String
  geoJSON : String
  name : String
  countryISO2 : String
  logoURL : String
  bbox : RegionBBox
  mapLayer : MapLayer
deriving DecidableEq, Repr

def GoFloat64.zero : GoFloat64 := ⟨0⟩

/-- The Go zero value `MapLayer{}` (a `var r Region` starts with it). -/
def MapLayer.zero : MapLayer :=
  { id := "", name := "", capabilitiesXML := "", layer := "", matrixSet := "",
    resolutions := [], defaultResolution := GoFloat64.zero, osBranding := false,
    extraAttributions := [] }

/-- The Go zero value `Challenge{}` (returned alongside errors). -/
def Challenge.zero : Challenge :=
  { id := "", regionID := "", geo := ⟨GoFloat64.zero, GoFloat64.zero⟩, title := "",
    descriptionHTML := "", dateTaken := none, link := "",
    src := ⟨⟨"", 0, 0⟩, ⟨"", 0, 0⟩, ⟨"", 0, 0⟩⟩, photographer := ⟨"", "", ""⟩,
    r := ⟨GoFloat64.zero, GoFloat64.zero⟩ }

/-- The lock-protected snapshot fields of `Repo`
(`regions`, `challenges`, `challengesByRegion`, `regionsWithChallenges`). -/
structure RepoState where
  regions : GoMap Region
  challenges : GoMap Challenge
  challengesByRegion : GoMap (List Challenge)
  regionsWithChallenges : List Int

/-! ## Facade query operations (`repos/repos.go:544–600`) -/

/-- The error values of the query operations: `decodeChallengeID`'s
`base32.CorruptInputError` (carrying the corrupt byte index),
`ChallengeNotFoundError` and `NoChallengesAvailableError`. They are
pairwise distinct values in Go as here. -/
inductive RepoError
  | corruptID (pos : Nat)
  | challengeNotFound
  | noChallengesAvailable
deriving DecidableEq, Repr

/-- The query `Regions()` (repos.go:544): returns the current `regions` snapshot. -/
def regionsQuery (st : RepoState) : GoMap Region := st.regions

/-- The query `Challenge(id)` (repos.go:573–589). -/
def challengeQuery (st : RepoState) (id : String) : Except RepoError Challenge :=
  match decodeChallengeID id with
  | .error e => .error (.corruptID e)
  | .ok internalID =>
    match st.challenges.lookup internalID with
    | none => .error .challengeNotFound
    | some val => .ok val

inductive RandomOutcome
  | ok (c : Challenge)
  | noChallengesAvailable
  | panicIntn
deriving DecidableEq, Repr

/-- The query `RandomChallenge(region)` (repos.go:551–571). The two `rand.Intn` draws
are passed in as `i` (over `regionsWithChallenges`) and `j` (over the
region's challenge list); theorems quantify over draws below the list
length, matching `rand.Intn`'s range. `rand.Intn(n)` panics for `n ≤ 0`,
which happens exactly when `region == nil` and `regionsWithChallenges` is
empty (`panicIntn`); a missing region id looks up `nil` in
`challengesByRegion` (here `[]`). -/
def randomChallengeQuery (st : RepoState) (region : Option Int) (i j : Nat) : RandomOutcome :=
  let regionID :=
    match region with
    | some rid => some rid
    | none =>
        if st.regionsWithChallenges.length = 0 then none
        else some (st.regionsWithChallenges.getD i 0)
  match regionID with
  | none => .panicIntn
  | some rid =>
    let list := (st.challengesByRegion.lookup rid).getD []
    if list.length = 0 then .noChallengesAvailable
    else .ok (list.getD j Challenge.zero)

/-! ## Relational-store row and error model

A query either fails as a whole (`Except.error` at the outer level, the
`tx.Query`/`db.Query` error) or yields a list of rows each of which may
fail to scan (`rows.Scan` error). -/

structure DBError where
  msg : String
deriving DecidableEq, Repr

/-- One row of the challenge load query (repos.go:853–861). -/
structure ChallengeRow where
  id : Int
  regionID : Int
  lng : GoFloat64
  lat : GoFloat64
  title : String
  descriptionHTML : String
  dateTaken : Option GoTime
  link : String
  previewSrc : String
  previewWidth : Int
  previewHeight : Int
  regularSrc : String
  regularWidth : Int
  regularHeight : Int
  largeSrc : String
  largeWidth : Int
  largeHeight : Int
  photographerIcon : String
  photographerText : String
  photographerLink : String
  rx : GoFloat64
  ry : GoFloat64
deriving DecidableEq, Repr

structure ChallengesDB where
  queryResult : Except DBError (List (Except DBError ChallengeRow))

/-- The `Challenge` built for one scanned row (repos.go:869–884):
`c.ID = encodeChallengeID(internalID)` is passed in as `eid`,
`c.RegionID = strconv.FormatInt(int64(internalRegionID), 10)`. -/
def mkChallenge (eid : String) (row : ChallengeRow) : Challenge :=
  { id := eid
    regionID := toString row.regionID
    geo := ⟨row.lng, row.lat⟩
    title := row.title
    descriptionHTML := row.descriptionHTML
    dateTaken := row.dateTaken
    link := row.link
    src := ⟨⟨row.previewSrc, row.previewWidth, row.previewHeight⟩,
           ⟨row.regularSrc, row.regularWidth, row.regularHeight⟩,
           ⟨row.largeSrc, row.largeWidth, row.largeHeight⟩⟩
    photographer := ⟨row.photographerIcon, row.photographerText, row.photographerLink⟩
    r := ⟨row.rx, row.ry⟩ }

inductive LoadResult (α : Type)
  | ok (val : α)
  | dbError (e : DBError)
  | panicked
deriving DecidableEq

/-- The `rows.Next()/rows.Scan` loop of `updateChallenges`
(repos.go:868–885): builds `challenges` (keyed by internal id) and
`challengesByRegion` (append per region); a scan error aborts;
`encodeChallengeID` out of bounds panics. -/
def scanChallengeRows :
    List (Except DBError ChallengeRow) → GoMap Challenge → GoMap (List Challenge) →
      LoadResult (GoMap Challenge × GoMap (List Challenge))
  | [], m, byR => .ok (m, byR)
  | .error e :: _, _, _ => .dbError e
  | .ok row :: rest, m, byR =>
    match encodeChallengeID row.id with
    | none => .panicked
    | some eid =>
      let c := mkChallenge eid row
      scanChallengeRows rest (m.insert row.id c)
        (byR.insert row.regionID (((byR.lookup row.regionID).getD []) ++ [c]))

/-- The loader `updateChallenges` (repos.go:852–891) up to the publish:
query, scan all rows, then derive `regionsWithChallenges` as the keys of
`challengesByRegion`. -/
def loadChallenges (db : ChallengesDB) :
    LoadResult (GoMap Challenge × GoMap (List Challenge) × List Int) :=
  match db.queryResult with
  | .error e => .dbError e
  | .ok rows =>
    match scanChallengeRows rows ∅ ∅ with
    | .dbError e => .dbError e
    | .panicked => .panicked
    | .ok (m, byR) => .ok (m, byR, byR.keys)

/-- The cycle `updateChallenges` including the publish critical section
(repos.go:892–896): on error the function returns before `r.mu.Lock()`,
leaving every snapshot field untouched; on success it replaces
`challenges`, `challengesByRegion` and `regionsWithChallenges` under the
lock. A panic (`none`) aborts the process. -/
def updateChallengesStep (st : RepoState) (db : ChallengesDB) : Option RepoState :=
  match loadChallenges db with
  | .panicked => none
  | .dbError _ => some st
  | .ok (m, byR, rwc) =>
      some { st with challenges := m, challengesByRegion := byR, regionsWithChallenges := rwc }

/-- One row of the region load query (repos.go:673–677). -/
structure RegionRow where
  id : Int
  geoJSON : String
  name : String
  countryISO2 : String
  logoURL : String
  minLng : GoFloat64
  maxLng : GoFloat64
  minLat : GoFloat64
  maxLat : GoFloat64
deriving DecidableEq, Repr

/-- One row of the map-layer load query (repos.go:694–702);
`capabilitiesURL` is the `ml.capabilities_url` column, scanned into
`CapabilitiesXML` until the fetch replaces it. -/
structure LayerRow where
  id : Int
  name : String
  capabilitiesURL : String
  layer : String
  matrixSet : String
  resolutions : List GoFloat64
  defaultResolution : GoFloat64
  osBranding : Option Bool
  extraAttributions : List String
deriving DecidableEq, Repr

/-- The relational inputs of one region refresh cycle: `db.Begin`, the
three queries, each with query-level and row-level error injection. -/
structure RegionsDB where
  beginResult : Option DBError
  regionRows : Except DBError (List (Except DBError RegionRow))
  layerRows : Except DBError (List (Except DBError LayerRow))
  assocRows : Except DBError (List (Except DBError (Int × Int)))

/-- Region built by the region scan loop (repos.go:683–691): fields from
the row, `ID = strconv.FormatInt(...)`, `MapLayer` left at its zero value
until the association join attaches one. -/
def mkRegion (row : RegionRow) : Region :=
  { id := toString row.id
    geoJSON := row.geoJSON
    name := row.name
    countryISO2 := row.countryISO2
    logoURL := row.logoURL
    bbox := ⟨row.minLng, row.maxLng, row.maxLat, row.minLat⟩
    mapLayer := MapLayer.zero }

/-- MapLayer built by the layer scan loop (repos.go:708–720): the
`capabilities_url` column is stored in `capabilitiesXML`;
`if osBranding != nil { ml.OSBranding = *osBranding }` over the zero
value `false`. -/
def mkMapLayer (row : LayerRow) : MapLayer :=
  { id := toString row.id
    name := row.name
    capabilitiesXML := row.capabilitiesURL
    layer := row.layer
    matrixSet := row.matrixSet
    resolutions := row.resolutions
    defaultResolution := row.defaultResolution
    osBranding := match row.osBranding with
      | none => false
      | some b => b
    extraAttributions := row.extraAttributions }

def scanRegionRows :
    List (Except DBError RegionRow) → GoMap Region → Except DBError (GoMap Region)
  | [], acc => .ok acc
  | .error e :: _, _ => .error e
  | .ok row :: rest, acc => scanRegionRows rest (acc.insert row.id (mkRegion row))

def scanLayerRows :
    List (Except DBError LayerRow) → GoMap MapLayer → Except DBError (GoMap MapLayer)
  | [], acc => .ok acc
  | .error e :: _, _ => .error e
  | .ok row :: rest, acc => scanLayerRows rest (acc.insert row.id (mkMapLayer row))

/-- The capability-fetch fan-out (repos.go:723–747), sequentialized over
the snapshot of `mapLayers` entries (each distinct layer id is handled by
exactly one goroutine; the final map content is order-independent):
`fetch` gives `fetchCapabilities`' outcome per URL; on error the layer id
is deleted, on success `CapabilitiesXML` is overwritten with the body.
(`strconv.Atoi(ml.ID)` recovers the key: `ml.ID = FormatInt(id)`.) -/
def fetchStage (fetch : String → Except Unit String) :
    List ((_ : Int) × MapLayer) → GoMap MapLayer → GoMap MapLayer
  | [], acc => acc
  | e :: rest, acc =>
    match fetch e.2.capabilitiesXML with
    | .error _ => fetchStage fetch rest (acc.erase e.1)
    | .ok xml => fetchStage fetch rest (acc.insert e.1 { e.2 with capabilitiesXML := xml })

/-- The association join loop (repos.go:749–777): for each
`(region_id, map_layer_id)` row, skip unknown regions; a region whose
layer is missing from the surviving set is deleted from the working map;
otherwise the enriched layer is attached. -/
def joinStage :
    List (Except DBError (Int × Int)) → GoMap MapLayer → GoMap Region →
      Except DBError (GoMap Region)
  | [], _, out => .ok out
  | .error e :: _, _, _ => .error e
  | .ok (regionID, mlID) :: rest, layers, out =>
    match out.lookup regionID with
    | none => joinStage rest layers out
    | some prevRegionValue =>
      match layers.lookup mlID with
      | none => joinStage rest layers (out.erase regionID)
      | some ml => joinStage rest layers (out.insert regionID { prevRegionValue with mapLayer := ml })

/-- The loader `updateRegions` (repos.go:666–778) up to the publish. -/
def loadRegions (db : RegionsDB) (fetch : String → Except Unit String) :
    Except DBError (GoMap Region) :=
  match db.beginResult with
  | some e => .error e
  | none =>
    match db.regionRows with
    | .error e => .error e
    | .ok rrows =>
      match scanRegionRows rrows ∅ with
      | .error e => .error e
      | .ok out =>
        match db.layerRows with
        | .error e => .error e
        | .ok lrows =>
          match scanLayerRows lrows ∅ with
          | .error e => .error e
          | .ok layers0 =>
            let layers := fetchStage fetch layers0.entries layers0
            match db.assocRows with
            | .error e => .error e
            | .ok arows => joinStage arows layers out

/-- The cycle `updateRegions` including the publish critical section
(repos.go:779–782): on error the function returns before `r.mu.Lock()`;
on success it replaces `regions` under the lock. -/
def updateRegionsStep (st : RepoState) (db : RegionsDB)
    (fetch : String → Except Unit String) : RepoState × Except DBError Unit :=
  match loadRegions db fetch with
  | .error e => (st, .error e)
  | .ok out => ({ st with regions := out }, .ok ())

/-! ## Capability fetcher (`repos/repos.go:785–825`) -/

structure NetError where
  msg : String
deriving DecidableEq, Repr

structure ReadError where
  msg : String
deriving DecidableEq, Repr

/-- One HTTP response: status code and the outcome of `io.ReadAll` on the
body (Go bodies are byte slices, `List Nat` here). -/
structure HTTPResponse where
  statusCode : Nat
  body : Except ReadError (List Nat)
deriving DecidableEq, Repr

inductive FetchError
  | network (e : NetError)
  | badStatus (status : Nat) (body : Except ReadError (List Nat))
  | bodyRead (e : ReadError)
  | invalidUTF8
deriving DecidableEq, Repr

/-- Continuation byte check: `locb ≤ b ≤ hicb` (0x80–0xBF). -/
def utf8Cont (b : Nat) : Bool := 128 ≤ b && b ≤ 191

/-- Go's `utf8.Valid` translated from its `unicode/utf8` first/acceptRanges
tables: 1-byte ASCII; 0x80–0xC1 invalid starters; 0xC2–0xDF size 2;
0xE0/0xE1–0xEC,0xEE–0xEF/0xED size 3 with accept ranges [A0,BF]/[80,BF]/
[80,9F]; 0xF0/0xF1–0xF3/0xF4 size 4 with accept ranges [90,BF]/[80,BF]/
[80,8F]; 0xF5–0xFF invalid. -/
def utf8Valid : List Nat → Bool
  | [] => true
  | b :: rest =>
    if b < 128 then utf8Valid rest
    else if b < 194 then false
    else if b ≤ 223 then
      match rest with
      | c1 :: r => utf8Cont c1 && utf8Valid r
      | [] => false
    else if b ≤ 239 then
      match rest with
      | c1 :: c2 :: r =>
          (if b = 224 then 160 ≤ c1 && c1 ≤ 191
           else if b = 237 then 128 ≤ c1 && c1 ≤ 159
           else utf8Cont c1) && utf8Cont c2 && utf8Valid r
      | _ => false
    else if b ≤ 244 then
      match rest with
      | c1 :: c2 :: c3 :: r =>
          (if b = 240 then 144 ≤ c1 && c1 ≤ 191
           else if b = 244 then 128 ≤ c1 && c1 ≤ 143
           else utf8Cont c1) && utf8Cont c2 && utf8Cont c3 && utf8Valid r
      | _ => false
    else false

/-- One attempt of the retried operation inside `fetchCapabilities`
(repos.go:787–823): a transport error is retryable; a non-200 status
(`resp.StatusCode != http.StatusOK` — exactly 200, not any 2xx) yields an
error capturing the response body read outcome; then the body is read and
must be valid UTF-8; on success `out = string(xml)` returns the body
bytes verbatim. -/
def attemptFetch (resp : Except NetError HTTPResponse) : Except FetchError (List Nat) :=
  match resp with
  | .error e => .error (.network e)
  | .ok r =>
    if r.statusCode ≠ 200 then .error (.badStatus r.statusCode r.body)
    else
      match r.body with
      | .error e => .error (.bodyRead e)
      | .ok xml => if utf8Valid xml then .ok xml else .error (.invalidUTF8)

/-- The library call `backoff.Retry` with `WithMaxElapsedTime(1*time.Minute)`: attempts are
repeated until one succeeds or the elapsed-time budget is exhausted, at
which point the **last** error is surfaced. Real elapsed time is
abstracted as a budget of `fuel` further attempts (the backoff schedule
determines `fuel`; it is finite because the maximum elapsed time is). -/
def backoffRetry (attempt : Nat → Except FetchError (List Nat)) :
    Nat → Nat → Except FetchError (List Nat)
  | k, fuel =>
    match attempt k with
    | .ok v => .ok v
    | .error e =>
      match fuel with
      | 0 => .error e
      | fuel' + 1 => backoffRetry attempt (k + 1) fuel'

/-- The function `fetchCapabilities` (repos.go:785–825): retry `attemptFetch` over the
per-attempt response sequence. -/
def fetchCapabilitiesRetry (responses : Nat → Except NetError HTTPResponse)
    (fuel : Nat) : Except FetchError (List Nat) :=
  backoffRetry (fun k => attemptFetch (responses k)) 0 fuel

/-- The challenge a loaded row yields (its opaque id is the encoding of
its internal id; total via `getD`, the loader itself panics out of
domain). -/
def mkChallengeFromRow (row : ChallengeRow) : Challenge :=
  mkChallenge ((encodeChallengeID row.id).getD "") row

/-- The working region map after the region scan (all rows ok). -/
def regionsOf (rrows : List RegionRow) : GoMap Region :=
  rrows.foldl (fun a row => a.insert row.id (mkRegion row)) ∅

/-- The working layer map after the layer scan (all rows ok). -/
def layersOf (lrows : List LayerRow) : GoMap MapLayer :=
  lrows.foldl (fun a row => a.insert row.id (mkMapLayer row)) ∅

/-- The surviving layers after the capability fetch fan-out. -/
def fetchedLayersOf (lrows : List LayerRow) (fetch : String → Except Unit String) :
    GoMap MapLayer :=
  fetchStage fetch (layersOf lrows).entries (layersOf lrows)

/-! ## Sampling distribution of `RandomChallenge(nil)` (for C5)

With both `rand.Intn` draws uniform, the probability that one call picks a
given region/challenge, for a fixed snapshot. -/

def nRWC (st : RepoState) : Nat := st.regionsWithChallenges.length

/-- The region selected in the first stage by draw `i`. -/
def chosenRegion (st : RepoState) (i : Nat) : Int := st.regionsWithChallenges.getD i 0

/-- Probability that the first stage picks region `r`: the draw is uniform
over list positions, so the probability is the number of positions holding
`r` over the list length. -/
def regionPickProb (st : RepoState) (r : Int) : ℚ :=
  (st.regionsWithChallenges.count r : ℚ) / (nRWC st : ℚ)

/-- Probability that `RandomChallenge(nil)` returns challenge `c`: sum over
the uniform first draw `i` of the probability that the uniform second draw
`j` yields `c` from the chosen region's list. -/
def challengePickProb (st : RepoState) (c : Challenge) : ℚ :=
  (((List.range (nRWC st)).map (fun i =>
    (1 / (nRWC st : ℚ)) *
      (let L := (st.challengesByRegion.lookup (chosenRegion st i)).getD []
       if L.length = 0 then 0
       else (((List.range L.length).filter
          (fun j => randomChallengeQuery st none i j = .ok c)).length : ℚ) /
            (L.length : ℚ)))).sum : ℚ)

/-! ## Concrete sample data (used by witnesses and counterexamples) -/

/-- A snapshot with no data at all (the state before any refresh; the Go
zero maps are nil). -/
def emptyState : RepoState := ⟨∅, ∅, ∅, []⟩

def sampleChallengeA : Challenge :=
  { Challenge.zero with id := "ae", regionID := "7", title := "A" }

def sampleChallengeB : Challenge :=
  { Challenge.zero with id := "fi", regionID := "9", title := "B" }

def sampleChallengeC : Challenge :=
  { Challenge.zero with id := "aq", regionID := "9", title := "C" }

/-- A snapshot with challenge internal id 1 in region 7 and internal ids
42, 3 in region 9. -/
def sampleState : RepoState :=
  { regions := ∅
    challenges := AList.insert 3 sampleChallengeC
      (AList.insert 42 sampleChallengeB (AList.insert 1 sampleChallengeA ∅))
    challengesByRegion := AList.insert 9 [sampleChallengeB, sampleChallengeC]
      (AList.insert 7 [sampleChallengeA] ∅)
    regionsWithChallenges := [7, 9] }

/-- A challenge cycle whose single query fails. -/
def dbChalQueryErr : ChallengesDB := ⟨.error ⟨"connection reset"⟩⟩

/-- A challenge cycle whose first row fails to scan. -/
def dbChalScanErr : ChallengesDB := ⟨.ok [.error ⟨"scan: bad column"⟩]⟩

/-- A region cycle whose `db.Begin` fails. -/
def dbRegBeginErr : RegionsDB :=
  ⟨some ⟨"begin failed"⟩, .ok [], .ok [], .ok []⟩

/-- A loaded challenge row with internal id 1 in region 7. -/
def sampleRow1 : ChallengeRow :=
  { id := 1, regionID := 7, lng := ⟨0⟩, lat := ⟨0⟩, title := "A", descriptionHTML := "",
    dateTaken := none, link := "", previewSrc := "", previewWidth := 0, previewHeight := 0,
    regularSrc := "", regularWidth := 0, regularHeight := 0, largeSrc := "", largeWidth := 0,
    largeHeight := 0, photographerIcon := "", photographerText := "", photographerLink := "",
    rx := ⟨0⟩, ry := ⟨0⟩ }

/-- A loaded challenge row with internal id 42 in region 9. -/
def sampleRow2 : ChallengeRow :=
  { sampleRow1 with id := 42, regionID := 9, title := "B" }

/-- C2 counterexample inputs: an active region with no layer-association
row at all, and one whose associated layer's capabilities document is
fetched successfully but empty. -/
def rrowNoAssoc : RegionRow :=
  { id := 1, geoJSON := "", name := "R", countryISO2 := "GB", logoURL := "",
    minLng := ⟨0⟩, maxLng := ⟨0⟩, minLat := ⟨0⟩, maxLat := ⟨0⟩ }

def lrowEmptyDoc : LayerRow :=
  { id := 5, name := "L", capabilitiesURL := "https://layer/capabilities", layer := "",
    matrixSet := "", resolutions := [], defaultResolution := ⟨0⟩, osBranding := none,
    extraAttributions := [] }

def dbNoAssoc : RegionsDB :=
  ⟨none, .ok [.ok rrowNoAssoc], .ok [], .ok []⟩

def dbEmptyDoc : RegionsDB :=
  ⟨none, .ok [.ok rrowNoAssoc], .ok [.ok lrowEmptyDoc], .ok [.ok (1, 5)]⟩


/-! ### Codec roundtrip machinery -/

lemma and31 (x : Nat) : x &&& 31 = x % 32 := Nat.and_pow_two_sub_one_eq_mod x 5

lemma lor_split (i a b : Nat) (ha : a % 2 ^ i = 0) (hb : b < 2 ^ i) : a ||| b = a + b := by
  obtain ⟨c, hc⟩ := Nat.dvd_of_mod_eq_zero ha
  subst hc
  exact (Nat.mul_add_lt_is_or hb c).symm

lemma roundtrip_chunk1 (s0 : Nat) (h0 : s0 < 256) :
    packChunk (encodeChunkSyms [s0]) = [s0] := by
  simp only [encodeChunkSyms, packChunk, List.length_cons, List.length_nil, List.getD,
    List.get?, Option.getD]
  norm_num
  rw [and31]
  rw [lor_split 3 ((s0 >>> 3 <<< 3) % 256) ((((s0 <<< 2) % 256) % 32) >>> 2) (by omega) (by omega)]
  omega

lemma roundtrip_chunk2 (s0 s1 : Nat) (h0 : s0 < 256) (h1 : s1 < 256) :
    packChunk (encodeChunkSyms [s0, s1]) = [s0, s1] := by
  simp only [encodeChunkSyms, packChunk, List.length_cons, List.length_nil, List.getD,
    List.get?, Option.getD]
  norm_num
  have hE1 : (s1 >>> 6) &&& 31 ||| s0 <<< 2 % 256 &&& 31 = s0 % 8 * 4 + s1 / 64 := by
    rw [and31, and31, Nat.lor_comm]
    rw [lor_split 2 (s0 <<< 2 % 256 % 32) (s1 >>> 6 % 32) (by omega) (by omega)]
    omega
  rw [hE1]
  refine ⟨?_, ?_⟩
  · rw [lor_split 3 (s0 >>> 3 <<< 3 % 256) ((s0 % 8 * 4 + s1 / 64) >>> 2) (by omega) (by omega)]
    omega
  · rw [and31, and31]
    rw [lor_split 6 ((s0 % 8 * 4 + s1 / 64) <<< 6 % 256) ((s1 >>> 1 % 32) <<< 1 % 256)
      (by omega) (by omega)]
    rw [lor_split 1 ((s0 % 8 * 4 + s1 / 64) <<< 6 % 256 + (s1 >>> 1 % 32) <<< 1 % 256)
      ((s1 <<< 4 % 256 % 32) >>> 4) (by omega) (by omega)]
    omega

lemma roundtrip_chunk3 (s0 s1 s2 : Nat) (h0 : s0 < 256) (h1 : s1 < 256) (h2 : s2 < 256) :
    packChunk (encodeChunkSyms [s0, s1, s2]) = [s0, s1, s2] := by
  simp only [encodeChunkSyms, packChunk, List.length_cons, List.length_nil, List.getD,
    List.get?, Option.getD]
  norm_num
  have hE1 : (s1 >>> 6) &&& 31 ||| s0 <<< 2 % 256 &&& 31 = s0 % 8 * 4 + s1 / 64 := by
    rw [and31, and31, Nat.lor_comm]
    rw [lor_split 2 (s0 <<< 2 % 256 % 32) (s1 >>> 6 % 32) (by omega) (by omega)]
    omega
  have hE3 : (s2 >>> 4) &&& 31 ||| s1 <<< 4 % 256 &&& 31 = s1 % 2 * 16 + s2 / 16 := by
    rw [and31, and31, Nat.lor_comm]
    rw [lor_split 4 (s1 <<< 4 % 256 % 32) (s2 >>> 4 % 32) (by omega) (by omega)]
    omega
  rw [hE1, hE3]
  refine ⟨?_, ?_, ?_⟩
  · rw [lor_split 3 (s0 >>> 3 <<< 3 % 256) ((s0 % 8 * 4 + s1 / 64) >>> 2) (by omega) (by omega)]
    omega
  · rw [and31]
    rw [lor_split 6 ((s0 % 8 * 4 + s1 / 64) <<< 6 % 256) ((s1 >>> 1 % 32) <<< 1 % 256)
      (by omega) (by omega)]
    rw [lor_split 1 ((s0 % 8 * 4 + s1 / 64) <<< 6 % 256 + (s1 >>> 1 % 32) <<< 1 % 256)
      ((s1 % 2 * 16 + s2 / 16) >>> 4) (by omega) (by omega)]
    omega
  · rw [and31]
    rw [lor_split 4 ((s1 % 2 * 16 + s2 / 16) <<< 4 % 256) ((s2 <<< 1 % 256 % 32) >>> 1)
      (by omega) (by omega)]
    omega

lemma roundtrip_chunk4 (s0 s1 s2 s3 : Nat)
    (h0 : s0 < 256) (h1 : s1 < 256) (h2 : s2 < 256) (h3 : s3 < 256) :
    packChunk (encodeChunkSyms [s0, s1, s2, s3]) = [s0, s1, s2, s3] := by
  simp only [encodeChunkSyms, packChunk, List.length_cons, List.length_nil, List.getD,
    List.get?, Option.getD]
  norm_num
  have hE1 : (s1 >>> 6) &&& 31 ||| s0 <<< 2 % 256 &&& 31 = s0 % 8 * 4 + s1 / 64 := by
    rw [and31, and31, Nat.lor_comm]
    rw [lor_split 2 (s0 <<< 2 % 256 % 32) (s1 >>> 6 % 32) (by omega) (by omega)]
    omega
  have hE3 : (s2 >>> 4) &&& 31 ||| s1 <<< 4 % 256 &&& 31 = s1 % 2 * 16 + s2 / 16 := by
    rw [and31, and31, Nat.lor_comm]
    rw [lor_split 4 (s1 <<< 4 % 256 % 32) (s2 >>> 4 % 32) (by omega) (by omega)]
    omega
  have hE4 : s3 >>> 7 ||| s2 <<< 1 % 256 &&& 31 = s2 % 16 * 2 + s3 / 128 := by
    rw [and31, Nat.lor_comm]
    rw [lor_split 1 (s2 <<< 1 % 256 % 32) (s3 >>> 7) (by omega) (by omega)]
    omega
  rw [hE1, hE3, hE4]
  refine ⟨?_, ?_, ?_, ?_⟩
  · rw [lor_split 3 (s0 >>> 3 <<< 3 % 256) ((s0 % 8 * 4 + s1 / 64) >>> 2) (by omega) (by omega)]
    omega
  · rw [and31]
    rw [lor_split 6 ((s0 % 8 * 4 + s1 / 64) <<< 6 % 256) ((s1 >>> 1 % 32) <<< 1 % 256)
      (by omega) (by omega)]
    rw [lor_split 1 ((s0 % 8 * 4 + s1 / 64) <<< 6 % 256 + (s1 >>> 1 % 32) <<< 1 % 256)
      ((s1 % 2 * 16 + s2 / 16) >>> 4) (by omega) (by omega)]
    omega
  · rw [lor_split 4 ((s1 % 2 * 16 + s2 / 16) <<< 4 % 256) ((s2 % 16 * 2 + s3 / 128) >>> 1)
      (by omega) (by omega)]
    omega
  · rw [and31, and31]
    rw [lor_split 7 ((s2 % 16 * 2 + s3 / 128) <<< 7 % 256) ((s3 >>> 2 % 32) <<< 2 % 256)
      (by omega) (by omega)]
    rw [lor_split 2 ((s2 % 16 * 2 + s3 / 128) <<< 7 % 256 + (s3 >>> 2 % 32) <<< 2 % 256)
      ((s3 <<< 3 % 256 % 32) >>> 3) (by omega) (by omega)]
    omega

lemma encodeSymbols_small (l : List Nat) (h : l.length ≤ 5) :
    encodeSymbols l = encodeChunkSyms l := by
  cases l with
  | nil => rfl
  | cons a as =>
    show encodeSymbolsAux (as.length + 1) (a :: as) = _
    rw [encodeSymbolsAux]
    · rw [if_neg (by simp at h ⊢; omega)]
    · simp

lemma packSymbols_small (l : List Nat) (h : l.length ≤ 8) :
    packSymbols l = packChunk l := by
  cases l with
  | nil => simp [packSymbols, packSymbolsAux, packChunk]
  | cons a as =>
    show packSymbolsAux (as.length + 1) (a :: as) = _
    rw [packSymbolsAux]
    · rw [if_neg (by simp at h ⊢; omega)]
    · simp

/-- Roundtrip at the byte level: base32-decoding the base32 encoding of a
1–4 byte big-endian suffix recovers the bytes. -/
lemma roundtrip_bytes (L : List Nat) (h1 : 1 ≤ L.length) (h4 : L.length ≤ 4)
    (hb : ∀ x ∈ L, x < 256) : packSymbols (encodeSymbols L) = L := by
  match L with
  | [s0] =>
    rw [encodeSymbols_small _ (by simp)]
    rw [packSymbols_small _ (by simp [encodeChunkSyms])]
    exact roundtrip_chunk1 s0 (hb s0 (by simp))
  | [s0, s1] =>
    rw [encodeSymbols_small _ (by simp)]
    rw [packSymbols_small _ (by simp [encodeChunkSyms])]
    exact roundtrip_chunk2 s0 s1 (hb s0 (by simp)) (hb s1 (by simp))
  | [s0, s1, s2] =>
    rw [encodeSymbols_small _ (by simp)]
    rw [packSymbols_small _ (by simp [encodeChunkSyms])]
    exact roundtrip_chunk3 s0 s1 s2 (hb s0 (by simp)) (hb s1 (by simp)) (hb s2 (by simp))
  | [s0, s1, s2, s3] =>
    rw [encodeSymbols_small _ (by simp)]
    rw [packSymbols_small _ (by simp [encodeChunkSyms])]
    exact roundtrip_chunk4 s0 s1 s2 s3 (hb s0 (by simp)) (hb s1 (by simp)) (hb s2 (by simp))
      (hb s3 (by simp))
  | _ :: _ :: _ :: _ :: _ :: _ => simp at h4

/-- Every symbol value produced by one encode quantum of in-range bytes
is a valid 5-bit value. -/
lemma encodeChunkSyms_lt (L : List Nat) (h : ∀ x ∈ L, x < 256) :
    ∀ v ∈ encodeChunkSyms L, v < 32 := by
  have step : ∀ x y : Nat, x < 256 → (x >>> 3 < 32 ∧ x &&& 31 < 32 ∧
      (x >>> 6) &&& 31 ||| y <<< 2 % 256 &&& 31 < 32 ∧
      (x >>> 4) &&& 31 ||| y <<< 4 % 256 &&& 31 < 32 ∧
      x >>> 7 ||| y <<< 1 % 256 &&& 31 < 32 ∧
      (x >>> 2) &&& 31 < 32 ∧ y <<< 3 % 256 &&& 31 < 32 ∧ (x >>> 1) &&& 31 < 32 ∧
      x >>> 5 ||| y <<< 3 % 256 &&& 31 < 32 ∧ y <<< 4 % 256 &&& 31 < 32 ∧
      y <<< 1 % 256 &&& 31 < 32 ∧ y <<< 2 % 256 &&& 31 < 32) := by
    intro x y hx
    refine ⟨by omega, by rw [and31]; omega, ?_, ?_, ?_, by rw [and31]; omega,
      by rw [and31]; omega, by rw [and31]; omega, ?_, by rw [and31]; omega,
      by rw [and31]; omega, by rw [and31]; omega⟩ <;>
      exact @Nat.or_lt_two_pow _ _ 5 (by first | (rw [and31]; omega) | omega)
        (by rw [and31]; omega)
  intro v hv
  match L with
  | [] => simp [encodeChunkSyms] at hv
  | [s0] =>
    have h0 := h s0 (by simp)
    simp only [encodeChunkSyms, List.mem_cons, List.not_mem_nil, or_false] at hv
    rcases hv with rfl | rfl
    · omega
    · exact (step s0 s0 h0).2.2.2.2.2.2.2.2.2.2.2
  | [s0, s1] =>
    have h0 := h s0 (by simp)
    have h1 := h s1 (by simp)
    simp only [encodeChunkSyms, List.mem_cons, List.not_mem_nil, or_false] at hv
    rcases hv with rfl | rfl | rfl | rfl
    · omega
    · exact (step s1 s0 h1).2.2.1
    · exact (step s1 s1 h1).2.2.2.2.2.2.2.1
    · exact (step s1 s1 h1).2.2.2.2.2.2.2.2.2.1
  | [s0, s1, s2] =>
    have h0 := h s0 (by simp)
    have h1 := h s1 (by simp)
    have h2 := h s2 (by simp)
    simp only [encodeChunkSyms, List.mem_cons, List.not_mem_nil, or_false] at hv
    rcases hv with rfl | rfl | rfl | rfl | rfl
    · omega
    · exact (step s1 s0 h1).2.2.1
    · exact (step s1 s1 h1).2.2.2.2.2.2.2.1
    · exact (step s2 s1 h2).2.2.2.1
    · exact (step s2 s2 h2).2.2.2.2.2.2.2.2.2.2.1
  | [s0, s1, s2, s3] =>
    have h0 := h s0 (by simp)
    have h1 := h s1 (by simp)
    have h2 := h s2 (by simp)
    have h3 := h s3 (by simp)
    simp only [encodeChunkSyms, List.mem_cons, List.not_mem_nil, or_false] at hv
    rcases hv with rfl | rfl | rfl | rfl | rfl | rfl | rfl
    · omega
    · exact (step s1 s0 h1).2.2.1
    · exact (step s1 s1 h1).2.2.2.2.2.2.2.1
    · exact (step s2 s1 h2).2.2.2.1
    · exact (step s3 s2 h3).2.2.2.2.1
    · exact (step s3 s3 h3).2.2.2.2.2.1
    · exact (step s3 s3 h3).2.2.2.2.2.2.1
  | s0 :: s1 :: s2 :: s3 :: s4 :: rest =>
    have h0 := h s0 (by simp)
    have h1 := h s1 (by simp)
    have h2 := h s2 (by simp)
    have h3 := h s3 (by simp)
    have h4 := h s4 (by simp)
    simp only [encodeChunkSyms, List.mem_cons, List.not_mem_nil, or_false] at hv
    rcases hv with rfl | rfl | rfl | rfl | rfl | rfl | rfl | rfl
    · omega
    · exact (step s1 s0 h1).2.2.1
    · exact (step s1 s1 h1).2.2.2.2.2.2.2.1
    · exact (step s2 s1 h2).2.2.2.1
    · exact (step s3 s2 h3).2.2.2.2.1
    · exact (step s3 s3 h3).2.2.2.2.2.1
    · exact (step s4 s3 h4).2.2.2.2.2.2.2.2.1
    · exact (step s4 s4 h4).2.1

lemma alphaIndex_symChar (v : Nat) (h : v < 32) : alphaIndex (symChar v) = some v := by
  have h32 : ∀ u, u < 32 → alphaIndex (alphabetChars.getD u 'a') = some u := by decide
  have hv : v &&& 31 = v := by rw [and31]; omega
  unfold symChar
  rw [hv]
  exact h32 v h

lemma symChar_not_newline (v : Nat) :
    (!(symChar v == '\r') && !(symChar v == '\n')) = true := by
  have h32 : ∀ u, u < 32 →
      (!(alphabetChars.getD u 'a' == '\r') && !(alphabetChars.getD u 'a' == '\n')) = true := by
    decide
  unfold symChar
  exact h32 (v &&& 31) (by rw [and31]; omega)

lemma mapSymbols_map_symChar (syms : List Nat) (h : ∀ v ∈ syms, v < 32) (i : Nat) :
    mapSymbols (syms.map symChar) i = .ok syms := by
  induction syms generalizing i with
  | nil => rfl
  | cons v vs ih =>
    simp only [List.map_cons, mapSymbols]
    rw [alphaIndex_symChar v (h v (by simp))]
    rw [ih (fun u hu => h u (by simp [hu])) (i + 1)]

/-- Decoding the string made of in-range symbols recovers the packed bytes. -/
lemma decode_symsToString (syms : List Nat) (h : ∀ v ∈ syms, v < 32) :
    decodeChallengeID (symsToString syms) =
      .ok ((uint32BE (padTo4 (packSymbols syms)) : Nat) : Int) := by
  unfold decodeChallengeID symsToString
  show (match mapSymbols (List.filter _ (String.mk (syms.map symChar)).data) 0 with
    | .error i => Except.error i
    | .ok syms => Except.ok ((uint32BE (padTo4 (packSymbols syms)) : Nat) : Int)) = _
  have hdata : (String.mk (syms.map symChar)).data = syms.map symChar := rfl
  rw [hdata]
  rw [List.filter_eq_self.mpr (by
    intro c hc
    obtain ⟨v, hv, rfl⟩ := List.mem_map.mp hc
    exact symChar_not_newline v)]
  rw [mapSymbols_map_symChar syms h 0]

/-- Roundtrip of the codec on its whole domain `1 .. 2^32-2`. -/
lemma encode_decode (id : Int) (hlo : 1 ≤ id) (hhi : id ≤ 4294967294) :
    ∃ s, encodeChallengeID id = some s ∧ decodeChallengeID s = .ok id := by
  have hn1 : 1 ≤ id.toNat := by omega
  have hn2 : id.toNat ≤ 4294967294 := by omega
  set n := id.toNat with hnn
  refine ⟨symsToString (encodeSymbols ((putUint32BE n).dropWhile (fun b => b == 0))), ?_, ?_⟩
  · unfold encodeChallengeID
    rw [if_neg (by omega)]
  · set L := (putUint32BE n).dropWhile (fun b => b == 0) with hLdef
    have hL : L = (putUint32BE n).dropWhile (fun b => b == 0) := hLdef
    rcases Nat.lt_or_ge n 256 with hr | hr1
    · have hexp : L = [n % 256] := by
        have e1 : ((n >>> 24) % 256 == 0) = true := by simp only [beq_iff_eq]; omega
        have e2 : ((n >>> 16) % 256 == 0) = true := by simp only [beq_iff_eq]; omega
        have e3 : ((n >>> 8) % 256 == 0) = true := by simp only [beq_iff_eq]; omega
        have e4 : (n % 256 == 0) = false := by simp only [beq_eq_false_iff_ne]; omega
        rw [hL]
        simp only [putUint32BE, List.dropWhile_cons, e1, e2, e3, e4]
        simp [List.dropWhile]
      rw [hexp]
      rw [decode_symsToString _ (by
        rw [encodeSymbols_small _ (by simp)]
        exact encodeChunkSyms_lt _ (by intro x hx; simp at hx; omega))]
      rw [roundtrip_bytes _ (by simp) (by simp) (by intro x hx; simp at hx; omega)]
      simp only [Except.ok.injEq]
      have hval : uint32BE (padTo4 [n % 256]) =
          0 * 16777216 + 0 * 65536 + 0 * 256 + n % 256 := rfl
      rw [hval]
      omega
    · rcases Nat.lt_or_ge n 65536 with hr | hr2
      · have hexp : L = [(n >>> 8) % 256, n % 256] := by
          have e1 : ((n >>> 24) % 256 == 0) = true := by simp only [beq_iff_eq]; omega
          have e2 : ((n >>> 16) % 256 == 0) = true := by simp only [beq_iff_eq]; omega
          have e3 : (((n >>> 8)) % 256 == 0) = false := by simp only [beq_eq_false_iff_ne]; omega
          rw [hL]
          simp only [putUint32BE, List.dropWhile_cons, e1, e2, e3]
          simp
        rw [hexp]
        rw [decode_symsToString _ (by
          rw [encodeSymbols_small _ (by simp)]
          exact encodeChunkSyms_lt _ (by intro x hx; simp at hx; rcases hx with rfl | rfl <;> omega))]
        rw [roundtrip_bytes _ (by simp) (by simp)
          (by intro x hx; simp at hx; rcases hx with rfl | rfl <;> omega)]
        simp only [Except.ok.injEq]
        have hval : uint32BE (padTo4 [(n >>> 8) % 256, n % 256]) =
            0 * 16777216 + 0 * 65536 + ((n >>> 8) % 256) * 256 + n % 256 := rfl
        rw [hval]
        omega
      · rcases Nat.lt_or_ge n 16777216 with hr | hr3
        · have hexp : L = [(n >>> 16) % 256, (n >>> 8) % 256, n % 256] := by
            have e1 : ((n >>> 24) % 256 == 0) = true := by simp only [beq_iff_eq]; omega
            have e2 : (((n >>> 16)) % 256 == 0) = false := by
              simp only [beq_eq_false_iff_ne]; omega
            rw [hL]
            simp only [putUint32BE, List.dropWhile_cons, e1, e2]
            simp
          rw [hexp]
          rw [decode_symsToString _ (by
            rw [encodeSymbols_small _ (by simp)]
            exact encodeChunkSyms_lt _ (by
              intro x hx; simp at hx; rcases hx with rfl | rfl | rfl <;> omega))]
          rw [roundtrip_bytes _ (by simp) (by simp)
            (by intro x hx; simp at hx; rcases hx with rfl | rfl | rfl <;> omega)]
          simp only [Except.ok.injEq]
          have hval : uint32BE (padTo4 [(n >>> 16) % 256, (n >>> 8) % 256, n % 256]) =
              0 * 16777216 + ((n >>> 16) % 256) * 65536 + ((n >>> 8) % 256) * 256 + n % 256 :=
            rfl
          rw [hval]
          omega
        · have hexp : L = [(n >>> 24) % 256, (n >>> 16) % 256, (n >>> 8) % 256, n % 256] := by
            have e1 : (((n >>> 24)) % 256 == 0) = false := by
              simp only [beq_eq_false_iff_ne]; omega
            rw [hL]
            simp only [putUint32BE, List.dropWhile_cons, e1]
            simp
          rw [hexp]
          rw [decode_symsToString _ (by
            rw [encodeSymbols_small _ (by simp)]
            exact encodeChunkSyms_lt _ (by
              intro x hx; simp at hx; rcases hx with rfl | rfl | rfl | rfl <;> omega))]
          rw [roundtrip_bytes _ (by simp) (by simp)
            (by intro x hx; simp at hx; rcases hx with rfl | rfl | rfl | rfl <;> omega)]
          simp only [Except.ok.injEq]
          have hval : uint32BE
              (padTo4 [(n >>> 24) % 256, (n >>> 16) % 256, (n >>> 8) % 256, n % 256]) =
              ((n >>> 24) % 256) * 16777216 + ((n >>> 16) % 256) * 65536 +
                ((n >>> 8) % 256) * 256 + n % 256 := rfl
          rw [hval]
          omega

lemma alphaIndex_eq_none_of_not_mem (c : Char) (h : c ∉ alphabetChars) :
    alphaIndex c = none := by
  unfold alphaIndex
  rw [List.findIdx?_eq_none_iff]
  intro x hx
  simp only [beq_eq_false_iff_ne]
  intro hxc
  exact h (hxc ▸ hx)

lemma mapSymbols_err_of_invalid (l : List Char) (i : Nat)
    (h : ∃ c ∈ l, alphaIndex c = none) : ∃ j, mapSymbols l i = .error j := by
  induction l generalizing i with
  | nil => simp at h
  | cons c rest ih =>
    by_cases hc : alphaIndex c = none
    · exact ⟨i, by simp [mapSymbols, hc]⟩
    · obtain ⟨v, hv⟩ := Option.ne_none_iff_exists'.mp hc
      obtain ⟨c0, hc0, hc0n⟩ := h
      rcases List.mem_cons.mp hc0 with rfl | hmem
      · exact absurd hc0n hc
      · obtain ⟨j, hj⟩ := ih (i + 1) ⟨c0, hmem, hc0n⟩
        exact ⟨j, by simp [mapSymbols, hv, hj]⟩

/-- Any string containing a character that is neither in the base32
alphabet nor a stripped newline character fails to decode. -/
lemma decode_err_of_invalid (s : String)
    (h : ∃ c ∈ s.data, c ∉ alphabetChars ∧ c ≠ '\r' ∧ c ≠ '\n') :
    ∃ j, decodeChallengeID s = .error j := by
  obtain ⟨c, hmem, hno, hr, hn⟩ := h
  have hfil : c ∈ s.data.filter (fun c => !(c == '\r') && !(c == '\n')) := by
    rw [List.mem_filter]
    exact ⟨hmem, by simp [hr, hn]⟩
  obtain ⟨j, hj⟩ := mapSymbols_err_of_invalid _ 0
    ⟨c, hfil, alphaIndex_eq_none_of_not_mem c hno⟩
  exact ⟨j, by simp only [decodeChallengeID]; rw [hj]⟩

/-- C1: the ID codec is a bijection on `1 .. 2^32-2`:
`decodeChallengeID (encodeChallengeID id)` succeeds and returns `id`,
`encodeChallengeID` is injective on this domain, and outside the domain
(`id ≤ 0` or `id ≥ 2^32-1`) `encodeChallengeID` fails as a programming
error (the Go panic, modelled as `none`), not a recoverable error. -/
theorem c1_codec_bijection :
    (∀ id : Int, 1 ≤ id → id ≤ 4294967294 →
      ∃ s, encodeChallengeID id = some s ∧ decodeChallengeID s = .ok id) ∧
    (∀ j k : Int, 1 ≤ j → j ≤ 4294967294 → 1 ≤ k → k ≤ 4294967294 →
      encodeChallengeID j = encodeChallengeID k → j = k) ∧
    (∀ id : Int, id ≤ 0 ∨ 4294967295 ≤ id → encodeChallengeID id = none) := by
  refine ⟨encode_decode, ?_, ?_⟩
  · intro j k h1 h2 h3 h4 heq
    obtain ⟨s1, hs1, hd1⟩ := encode_decode j h1 h2
    obtain ⟨s2, hs2, hd2⟩ := encode_decode k h3 h4
    rw [hs1, hs2, Option.some.injEq] at heq
    rw [heq, hd2, Except.ok.injEq] at hd1
    exact hd1.symm
  · intro id h
    unfold encodeChallengeID
    rw [if_pos h]

/-- Witness for C1 at `id = 42` and out-of-domain inputs `0`, `2^32-1`. -/
theorem c1_codec_bijection_witness :
    (∃ s, encodeChallengeID 42 = some s ∧ decodeChallengeID s = .ok 42) ∧
    encodeChallengeID 0 = none ∧ encodeChallengeID 4294967295 = none :=
  ⟨c1_codec_bijection.1 42 (by decide) (by decide),
   c1_codec_bijection.2.2 0 (Or.inl (by decide)),
   c1_codec_bijection.2.2 4294967295 (Or.inr (by decide))⟩

/-- C9 counterexample: `"ae\n"` contains the character `'\n'`, which is
outside the 32-symbol alphabet, yet `decodeChallengeID` accepts it
(Go's base32 `DecodeString` strips `'\r'` and `'\n'` before decoding),
so "decode fails for every string containing a character outside the
alphabet" is false as stated. -/
theorem c9_decode_newline_counterexample :
    ('\n' ∈ "ae\n".data ∧ '\n' ∉ alphabetChars) ∧
    decodeChallengeID "ae\n" = .ok 1 := by decide

/-- C9 (amended): the fixed samples hold
(`encode 1 = "ae"`, `encode 42 = "fi"`, `encode 2048 = "baaa"`, and
decoding each recovers the integer), and `decodeChallengeID` fails for
every string containing a character outside the 32-symbol alphabet
**other than** `'\r'`/`'\n'`, which Go's base32 decoder strips before
decoding. -/
theorem c9_codec_fixed_samples :
    encodeChallengeID 1 = some "ae" ∧ encodeChallengeID 42 = some "fi" ∧
    encodeChallengeID 2048 = some "baaa" ∧
    decodeChallengeID "ae" = .ok 1 ∧ decodeChallengeID "fi" = .ok 42 ∧
    decodeChallengeID "baaa" = .ok 2048 ∧
    (∀ s : String, (∃ c ∈ s.data, c ∉ alphabetChars ∧ c ≠ '\r' ∧ c ≠ '\n') →
      ∃ j, decodeChallengeID s = .error j) :=
  ⟨by decide, by decide, by decide, by decide, by decide, by decide,
   decode_err_of_invalid⟩

/-- Witness for C9 (amended) at the concrete malformed string
`"not-base32!"`. -/
theorem c9_codec_fixed_samples_witness :
    ∃ j, decodeChallengeID "not-base32!" = .error j :=
  c9_codec_fixed_samples.2.2.2.2.2.2 "not-base32!" ⟨'-', by decide, by decide, by decide, by decide⟩

/-- C10: `decodeChallengeID` accepts well-formed base32 strings outside
the image of `encodeChallengeID`: `"aa"` decodes to `0` without error
(outside the codec domain, as `encodeChallengeID 0` panics), and the
distinct accepted strings `"aaaq"` and `"ae"` both decode to `1`, so
decode is not injective on accepted inputs and
`encodeChallengeID (decodeChallengeID s) = s` fails for accepted `s`. -/
theorem c10_decode_accepts_noncanonical :
    decodeChallengeID "aa" = .ok 0 ∧
    decodeChallengeID "aaaq" = .ok 1 ∧ decodeChallengeID "ae" = .ok 1 ∧
    ("aaaq" ≠ "ae") ∧ encodeChallengeID 0 = none ∧
    encodeChallengeID 1 = some "ae" ∧ some "ae" ≠ some "aaaq" := by decide

/-! ### C3, C4: query operation error behaviour -/

/-- C3 counterexample: with an empty pool (`regionsWithChallenges = []`),
`RandomChallenge(nil)` does **not** fail with `NoChallengesAvailable`: it
calls `rand.Intn(0)`, which panics. -/
theorem c3_empty_pool_counterexample :
    randomChallengeQuery emptyState none 0 0 ≠ .noChallengesAvailable ∧
    randomChallengeQuery emptyState none 0 0 = .panicIntn := by decide

/-- C3 (amended): with a region id given, `RandomChallenge` fails with
`NoChallengesAvailable` whenever the region is absent from the challenge
snapshot or its list is empty; but with no region id and an empty
regions-with-challenges list it panics (`rand.Intn(0)`) instead of
returning `NoChallengesAvailable`. -/
theorem c3_random_challenge_empty :
    (∀ (st : RepoState) (rid : Int) (i j : Nat),
      st.challengesByRegion.lookup rid = none ∨ st.challengesByRegion.lookup rid = some [] →
      randomChallengeQuery st (some rid) i j = .noChallengesAvailable) ∧
    (∀ (st : RepoState) (i j : Nat), st.regionsWithChallenges = [] →
      randomChallengeQuery st none i j = .panicIntn) := by
  constructor
  · intro st rid i j h
    rcases h with h | h <;> simp [randomChallengeQuery, h]
  · intro st i j h
    simp [randomChallengeQuery, h]

/-- Witness for C3 (amended): region 99 is absent from the sample
snapshot; the empty snapshot has an empty pool. -/
theorem c3_random_challenge_empty_witness :
    randomChallengeQuery sampleState (some 99) 0 0 = .noChallengesAvailable ∧
    randomChallengeQuery emptyState none 0 0 = .panicIntn :=
  ⟨c3_random_challenge_empty.1 sampleState 99 0 0 (Or.inl (by decide)),
   c3_random_challenge_empty.2 emptyState 0 0 rfl⟩

/-- C4: `Challenge(opaqueId)` returns the decode error (`InvalidID`) for
every malformed id, `ChallengeNotFound` for every well-formed id whose
decoded internal id is absent from the snapshot, the two errors are
distinct values, and for a present id it returns the stored challenge. -/
theorem c4_challenge_query_errors :
    (∀ (st : RepoState) (s : String) (e : Nat), decodeChallengeID s = .error e →
      challengeQuery st s = .error (.corruptID e)) ∧
    (∀ (st : RepoState) (s : String) (i : Int), decodeChallengeID s = .ok i →
      st.challenges.lookup i = none → challengeQuery st s = .error .challengeNotFound) ∧
    (∀ p : Nat, RepoError.corruptID p ≠ RepoError.challengeNotFound) ∧
    (∀ (st : RepoState) (s : String) (i : Int) (c : Challenge), decodeChallengeID s = .ok i →
      st.challenges.lookup i = some c → challengeQuery st s = .ok c) := by
  refine ⟨?_, ?_, ?_, ?_⟩
  · intro st s e h
    simp [challengeQuery, h]
  · intro st s i h hl
    simp [challengeQuery, h, hl]
  · intro p
    simp
  · intro st s i c h hl
    simp [challengeQuery, h, hl]

/-- Witness for C4: `"not-base32!"` is malformed (`InvalidID` at byte 3);
`"aa"` decodes to internal id 0, absent from the sample snapshot
(`ChallengeNotFound`); `"ae"` decodes to internal id 1, which is present. -/
theorem c4_challenge_query_errors_witness :
    challengeQuery sampleState "not-base32!" = .error (.corruptID 3) ∧
    challengeQuery sampleState "aa" = .error .challengeNotFound ∧
    challengeQuery sampleState "ae" = .ok sampleChallengeA :=
  ⟨c4_challenge_query_errors.1 sampleState "not-base32!" 3 (by decide),
   c4_challenge_query_errors.2.1 sampleState "aa" 0 (by decide) (by decide),
   c4_challenge_query_errors.2.2.2 sampleState "ae" 1 sampleChallengeA (by decide) (by decide)⟩

/-! ### C6: refresh cycle atomicity -/

/-- C6: if a region or challenge refresh cycle returns an error from any
relational-store query or row scan, it returns without publishing: the
resulting state is exactly the previous one (all four snapshot fields
unchanged); a successful cycle replaces exactly the relevant fields in
the single publish critical section. -/
theorem c6_refresh_atomicity :
    (∀ (st : RepoState) (db : RegionsDB) (fetch : String → Except Unit String) (e : DBError),
      loadRegions db fetch = .error e → updateRegionsStep st db fetch = (st, .error e)) ∧
    (∀ (st : RepoState) (db : RegionsDB) (fetch : String → Except Unit String)
      (out : GoMap Region), loadRegions db fetch = .ok out →
      updateRegionsStep st db fetch = ({ st with regions := out }, .ok ())) ∧
    (∀ (st : RepoState) (db : ChallengesDB) (e : DBError),
      loadChallenges db = .dbError e → updateChallengesStep st db = some st) ∧
    (∀ (st : RepoState) (db : ChallengesDB) (m : GoMap Challenge)
      (byR : GoMap (List Challenge)) (rwc : List Int),
      loadChallenges db = .ok (m, byR, rwc) →
      updateChallengesStep st db =
        some { st with challenges := m, challengesByRegion := byR, regionsWithChallenges := rwc }) := by
  refine ⟨?_, ?_, ?_, ?_⟩
  · intro st db fetch e h
    simp [updateRegionsStep, h]
  · intro st db fetch out h
    simp [updateRegionsStep, h]
  · intro st db e h
    simp [updateChallengesStep, h]
  · intro st db m byR rwc h
    simp [updateChallengesStep, h]

/-- Witness for C6: a query-level error, a row-scan error and a `Begin`
error each leave the sample snapshot exactly as it was; an empty but
successful cycle publishes the (empty) result. -/
theorem c6_refresh_atomicity_witness :
    updateChallengesStep sampleState dbChalQueryErr = some sampleState ∧
    updateChallengesStep sampleState dbChalScanErr = some sampleState ∧
    updateRegionsStep sampleState dbRegBeginErr (fun _ => .error ()) =
      (sampleState, .error ⟨"begin failed"⟩) ∧
    updateChallengesStep sampleState ⟨.ok []⟩ =
      some { sampleState with challenges := ∅, challengesByRegion := ∅, regionsWithChallenges := [] } :=
  ⟨c6_refresh_atomicity.2.2.1 sampleState dbChalQueryErr ⟨"connection reset"⟩ rfl,
   c6_refresh_atomicity.2.2.1 sampleState dbChalScanErr ⟨"scan: bad column"⟩ rfl,
   c6_refresh_atomicity.1 sampleState dbRegBeginErr (fun _ => .error ()) ⟨"begin failed"⟩ rfl,
   c6_refresh_atomicity.2.2.2 sampleState ⟨.ok []⟩ ∅ ∅ [] rfl⟩

/-! ### C7: the challenge refresh builds the id and region indexes -/

lemma scan_challenge_rows_ok (rows : List ChallengeRow)
    (hdom : ∀ row ∈ rows, ¬ encodeChallengeID row.id = none)
    (hnodup : (rows.map (fun r => r.id)).Nodup) :
    ∀ (m0 : GoMap Challenge) (byR0 : GoMap (List Challenge)),
    (∀ (k : Int) (L : List Challenge), byR0.lookup k = some L → L ≠ []) →
    ∃ m byR, scanChallengeRows (rows.map Except.ok) m0 byR0 = .ok (m, byR) ∧
      (∀ k : Int, m.lookup k =
        (match rows.find? (fun r => r.id == k) with
         | some row => some (mkChallengeFromRow row)
         | none => m0.lookup k)) ∧
      (∀ k : Int, (byR.lookup k).getD [] =
        (byR0.lookup k).getD [] ++
          ((rows.filter (fun r => r.regionID == k)).map mkChallengeFromRow)) ∧
      (∀ k : Int, k ∈ byR ↔ k ∈ byR0 ∨ ∃ row ∈ rows, row.regionID = k) ∧
      (∀ (k : Int) (L : List Challenge), byR.lookup k = some L → L ≠ []) := by
  induction rows with
  | nil =>
    intro m0 byR0 hne
    refine ⟨m0, byR0, rfl, ?_, ?_, ?_, hne⟩
    · intro k
      simp [List.find?]
    · intro k
      simp [List.filter]
    · intro k
      simp
  | cons row rest ih =>
    intro m0 byR0 hne
    obtain ⟨eid, heid⟩ := Option.ne_none_iff_exists'.mp (hdom row (by simp))
    have hdom' : ∀ r ∈ rest, ¬ encodeChallengeID r.id = none :=
      fun r hr => hdom r (by simp [hr])
    have hnodup' : (rest.map (fun r => r.id)).Nodup := by
      simpa using hnodup.of_cons
    have hmkeq : mkChallenge eid row = mkChallengeFromRow row := by
      unfold mkChallengeFromRow
      rw [heid]
      rfl
    set c := mkChallenge eid row with hc
    set old := (byR0.lookup row.regionID).getD [] with hold
    have hne' : ∀ (k : Int) (L : List Challenge),
        (byR0.insert row.regionID (old ++ [c])).lookup k = some L → L ≠ [] := by
      intro k L hkL
      by_cases hk : k = row.regionID
      · subst hk
        rw [AList.lookup_insert] at hkL
        simp at hkL
        subst hkL
        simp
      · rw [AList.lookup_insert_ne hk] at hkL
        exact hne k L hkL
    obtain ⟨m, byR, hscan, hm, hbyR, hmem, hneF⟩ :=
      ih hdom' hnodup' (m0.insert row.id c) (byR0.insert row.regionID (old ++ [c])) hne'
    refine ⟨m, byR, ?_, ?_, ?_, ?_, hneF⟩
    · simp only [List.map_cons, scanChallengeRows, heid]
      exact hscan
    · intro k
      rw [hm k]
      by_cases hk : row.id = k
      · subst hk
        have hfindnil : rest.find? (fun r => r.id == row.id) = none := by
          rw [List.find?_eq_none]
          intro r hr
          simp only [beq_iff_eq]
          intro hid
          have : row.id ∈ rest.map (fun r => r.id) := by
            exact List.mem_map.mpr ⟨r, hr, hid⟩
          simp at hnodup
          exact hnodup.1 r hr hid
        simp [List.find?, hfindnil, AList.lookup_insert, hmkeq]
      · have : (row.id == k) = false := by simp [hk]
        simp only [List.find?, this]
        cases hfind : rest.find? (fun r => r.id == k) with
        | some r => simp
        | none => simp [AList.lookup_insert_ne (Ne.symm hk)]
    · intro k
      rw [hbyR k]
      by_cases hk : row.regionID = k
      · subst hk
        have : (row.regionID == row.regionID) = true := by simp
        simp only [List.filter_cons, this, List.map_cons, AList.lookup_insert]
        simp [hmkeq, hold]
      · have hbf : (row.regionID == k) = false := by simp [hk]
        simp only [List.filter_cons, hbf]
        rw [AList.lookup_insert_ne (Ne.symm hk)]
        simp
    · intro k
      rw [hmem k, AList.mem_insert]
      constructor
      · rintro (h | h)
        · rcases h with rfl | h
          · exact Or.inr ⟨row, by simp⟩
          · exact Or.inl h
        · obtain ⟨r, hr, hrk⟩ := h
          exact Or.inr ⟨r, by simp [hr], hrk⟩
      · rintro (h | ⟨r, hr, hrk⟩)
        · exact Or.inl (Or.inr h)
        · rcases List.mem_cons.mp hr with rfl | hr'
          · exact Or.inl (Or.inl hrk.symm)
          · exact Or.inr ⟨r, hr', hrk⟩

lemma find_head_of_nodup (rows : List ChallengeRow) (row : ChallengeRow)
    (hmem : row ∈ rows) (hnodup : (rows.map (fun r => r.id)).Nodup) :
    rows.find? (fun r => r.id == row.id) = some row := by
  induction rows with
  | nil => simp at hmem
  | cons r0 rest ih =>
    simp only [List.map_cons, List.nodup_cons, List.mem_map] at hnodup
    by_cases h0 : r0.id = row.id
    · rcases List.mem_cons.mp hmem with rfl | hmem'
      · simp [List.find?]
      · exact absurd ⟨row, hmem', h0.symm⟩ hnodup.1
    · have hbf : (r0.id == row.id) = false := by simp [h0]
      simp only [List.find?, hbf]
      rcases List.mem_cons.mp hmem with rfl | hmem'
      · exact absurd rfl h0
      · exact ih hmem' hnodup.2

/-- C7: a successful challenge refresh over rows with distinct in-domain
internal ids publishes: a map binding every row's internal id `i` to that
row's challenge (so `Challenge(encodeChallengeID(i))` returns it), a map
from region id to the ordered list of that region's challenges (row
order), and — as `regionsWithChallenges` — exactly the region ids with at
least one challenge. -/
theorem c7_challenge_refresh_maps (rows : List ChallengeRow) (db : ChallengesDB)
    (hq : db.queryResult = .ok (rows.map Except.ok))
    (hnodup : (rows.map (fun r => r.id)).Nodup)
    (hdom : ∀ row ∈ rows, 1 ≤ row.id ∧ row.id ≤ 4294967294) :
    ∃ m byR, loadChallenges db = .ok (m, byR, byR.keys) ∧
      (∀ row ∈ rows, ∃ eid, encodeChallengeID row.id = some eid ∧
        m.lookup row.id = some (mkChallengeFromRow row) ∧
        ∀ st : RepoState,
          challengeQuery { st with challenges := m } eid = .ok (mkChallengeFromRow row)) ∧
      (∀ k : Int, (byR.lookup k).getD [] =
        (rows.filter (fun r => r.regionID == k)).map mkChallengeFromRow) ∧
      (∀ k : Int, k ∈ byR.keys ↔ ∃ row ∈ rows, row.regionID = k) ∧
      (∀ k : Int, k ∈ byR.keys → (byR.lookup k).getD [] ≠ []) := by
  have hdom' : ∀ row ∈ rows, ¬ encodeChallengeID row.id = none := by
    intro row hr
    obtain ⟨h1, h2⟩ := hdom row hr
    unfold encodeChallengeID
    rw [if_neg (by omega)]
    simp
  obtain ⟨m, byR, hscan, hm, hbyR, hmem, hneF⟩ :=
    scan_challenge_rows_ok rows hdom' hnodup ∅ ∅ (by simp [AList.lookup_empty])
  refine ⟨m, byR, ?_, ?_, ?_, ?_, ?_⟩
  · unfold loadChallenges
    rw [hq]
    dsimp only
    rw [hscan]
  · intro row hr
    obtain ⟨h1, h2⟩ := hdom row hr
    obtain ⟨s, hs, hd⟩ := encode_decode row.id h1 h2
    have hmrow : m.lookup row.id = some (mkChallengeFromRow row) := by
      rw [hm row.id, find_head_of_nodup rows row hr hnodup]
    refine ⟨s, hs, hmrow, ?_⟩
    intro st
    simp only [challengeQuery, hd, hmrow]
  · intro k
    rw [hbyR k]
    simp [AList.lookup_empty]
  · intro k
    rw [← AList.mem_keys, hmem k]
    simp
  · intro k hkmem
    rw [← AList.mem_keys] at hkmem
    have hnn : byR.lookup k ≠ none := by
      simp only [ne_eq, AList.lookup_eq_none]
      exact fun h => h hkmem
    obtain ⟨L, hL⟩ := Option.ne_none_iff_exists'.mp hnn
    rw [hL]
    simpa using hneF k L hL

/-- Witness for C7 on a concrete two-row load. -/
theorem c7_challenge_refresh_maps_witness :
    ∃ m byR, loadChallenges ⟨.ok ([sampleRow1, sampleRow2].map Except.ok)⟩ =
      .ok (m, byR, byR.keys) ∧ m.lookup 1 = some (mkChallengeFromRow sampleRow1) := by
  obtain ⟨m, byR, h, hrows, _, _, _⟩ :=
    c7_challenge_refresh_maps [sampleRow1, sampleRow2]
      ⟨.ok ([sampleRow1, sampleRow2].map Except.ok)⟩ rfl (by decide) (by decide)
  obtain ⟨eid, _, hl, _⟩ := hrows sampleRow1 (by simp)
  exact ⟨m, byR, h, hl⟩

/-! ### C2: published region snapshots and layer enrichment -/

lemma scanRegionRows_all_ok (rows : List RegionRow) :
    ∀ acc : GoMap Region,
      scanRegionRows (rows.map Except.ok) acc =
        .ok (rows.foldl (fun a row => a.insert row.id (mkRegion row)) acc) := by
  induction rows with
  | nil => intro acc; rfl
  | cons row rest ih =>
    intro acc
    simp only [List.map_cons, scanRegionRows, List.foldl_cons]
    exact ih _

lemma scanLayerRows_all_ok (rows : List LayerRow) :
    ∀ acc : GoMap MapLayer,
      scanLayerRows (rows.map Except.ok) acc =
        .ok (rows.foldl (fun a row => a.insert row.id (mkMapLayer row)) acc) := by
  induction rows with
  | nil => intro acc; rfl
  | cons row rest ih =>
    intro acc
    simp only [List.map_cons, scanLayerRows, List.foldl_cons]
    exact ih _

lemma foldl_insert_region_lookup (rows : List RegionRow) :
    ∀ (acc : GoMap Region) (k : Int) (reg : Region),
      (rows.foldl (fun a row => a.insert row.id (mkRegion row)) acc).lookup k = some reg →
      (∃ row ∈ rows, row.id = k) ∨ acc.lookup k = some reg := by
  induction rows with
  | nil => intro acc k reg h; exact Or.inr h
  | cons row rest ih =>
    intro acc k reg h
    simp only [List.foldl_cons] at h
    rcases ih _ k reg h with h' | h'
    · obtain ⟨r, hr, hrk⟩ := h'
      exact Or.inl ⟨r, by simp [hr], hrk⟩
    · by_cases hk : row.id = k
      · exact Or.inl ⟨row, by simp, hk⟩
      · rw [AList.lookup_insert_ne (Ne.symm hk)] at h'
        exact Or.inr h'

/-- Where every surviving layer of the fetch stage comes from: either it
is one of the processed entries with `capabilitiesXML` replaced by a
successfully fetched document, or its key was not processed at all and
the accumulator already held it. -/
lemma fetchStage_lookup (fetch : String → Except Unit String) :
    ∀ (entries : List ((_ : Int) × MapLayer)) (acc : GoMap MapLayer) (k : Int) (ml' : MapLayer),
      (fetchStage fetch entries acc).lookup k = some ml' →
      (∃ e ∈ entries, e.1 = k ∧ ∃ xml, fetch e.2.capabilitiesXML = .ok xml ∧
        ml' = { e.2 with capabilitiesXML := xml }) ∨
      ((∀ e ∈ entries, e.1 ≠ k) ∧ acc.lookup k = some ml') := by
  intro entries
  induction entries with
  | nil =>
    intro acc k ml' h
    exact Or.inr ⟨by simp, h⟩
  | cons e rest ih =>
    intro acc k ml' h
    simp only [fetchStage] at h
    cases hf : fetch e.2.capabilitiesXML with
    | error err =>
      rw [hf] at h
      rcases ih _ k ml' h with h' | ⟨hall, hacc⟩
      · obtain ⟨e', he', rest'⟩ := h'
        exact Or.inl ⟨e', by simp [he'], rest'⟩
      · by_cases hk : e.1 = k
        · subst hk
          rw [AList.lookup_erase] at hacc
          exact absurd hacc (by simp)
        · rw [AList.lookup_erase_ne (Ne.symm hk)] at hacc
          exact Or.inr ⟨by simpa [hk] using hall, hacc⟩
    | ok xml =>
      rw [hf] at h
      rcases ih _ k ml' h with h' | ⟨hall, hacc⟩
      · obtain ⟨e', he', rest'⟩ := h'
        exact Or.inl ⟨e', by simp [he'], rest'⟩
      · by_cases hk : e.1 = k
        · subst hk
          rw [AList.lookup_insert] at hacc
          exact Or.inl ⟨e, by simp, rfl, xml, hf, ((Option.some.injEq _ _).mp hacc).symm⟩
        · rw [AList.lookup_insert_ne (Ne.symm hk)] at hacc
          exact Or.inr ⟨by simpa [hk] using hall, hacc⟩

/-- The join `joinStage` never introduces a key: a region id absent from the
working map stays absent (deleted regions are never re-added). -/
lemma joinStage_no_new_keys :
    ∀ (arows : List (Except DBError (Int × Int))) (layers : GoMap MapLayer)
      (out out' : GoMap Region) (k : Int),
      joinStage arows layers out = .ok out' → out.lookup k = none →
      out'.lookup k = none := by
  intro arows
  induction arows with
  | nil =>
    intro layers out out' k h hk
    simp only [joinStage, Except.ok.injEq] at h
    rw [← h]
    exact hk
  | cons r rest ih =>
    intro layers out out' k h hk
    match r with
    | .error e => simp [joinStage] at h
    | .ok (rid, lid) =>
      simp only [joinStage] at h
      cases hlo : out.lookup rid with
      | none =>
        rw [hlo] at h
        exact ih layers out out' k h hk
      | some prev =>
        rw [hlo] at h
        cases hml : layers.lookup lid with
        | none =>
          rw [hml] at h
          refine ih layers _ out' k h ?_
          by_cases hr : k = rid
          · subst hr
            exact AList.lookup_erase k out
          · rw [AList.lookup_erase_ne hr]
            exact hk
        | some ml =>
          rw [hml] at h
          refine ih layers _ out' k h ?_
          by_cases hr : k = rid
          · exfalso
            rw [← hr, hk] at hlo
            exact Option.noConfusion hlo
          · rw [AList.lookup_insert_ne hr]
            exact hk

/-- If an association row references a layer that did not survive the
fetch stage, its region is dropped from the published snapshot entirely. -/
lemma joinStage_drops_failed (layers : GoMap MapLayer) :
    ∀ (arows : List (Except DBError (Int × Int))) (out out' : GoMap Region)
      (rid lid : Int),
      joinStage arows layers out = .ok out' →
      Except.ok (rid, lid) ∈ arows → layers.lookup lid = none →
      out'.lookup rid = none := by
  intro arows
  induction arows with
  | nil => intro out out' rid lid h hmem; simp at hmem
  | cons r rest ih =>
    intro out out' rid lid h hmem hlid
    rcases List.mem_cons.mp hmem with rfl | hmem'
    · simp only [joinStage] at h
      cases hlo : out.lookup rid with
      | none =>
        rw [hlo] at h
        exact joinStage_no_new_keys rest layers out out' rid h hlo
      | some prev =>
        rw [hlo, hlid] at h
        exact joinStage_no_new_keys rest layers _ out' rid h (AList.lookup_erase rid out)
    · match r with
      | .error e => simp [joinStage] at h
      | .ok (rid0, lid0) =>
        simp only [joinStage] at h
        cases hlo : out.lookup rid0 with
        | none =>
          rw [hlo] at h
          exact ih out out' rid lid h hmem' hlid
        | some prev =>
          rw [hlo] at h
          cases hml : layers.lookup lid0 with
          | none =>
            rw [hml] at h
            exact ih _ out' rid lid h hmem' hlid
          | some ml =>
            rw [hml] at h
            exact ih _ out' rid lid h hmem' hlid

/-- Invariant carrying the goodness of published regions through the
association join: every region of the working map either already has a
good layer or still has an unprocessed association row; at the end all
published regions have good layers. -/
lemma joinStage_good (layers : GoMap MapLayer)
    (hlayers : ∀ (lid : Int) (ml : MapLayer), layers.lookup lid = some ml →
      ml.capabilitiesXML ≠ "") :
    ∀ (arows : List (Except DBError (Int × Int))) (out out' : GoMap Region),
      joinStage arows layers out = .ok out' →
      (∀ (k : Int) (reg : Region), out.lookup k = some reg →
        reg.mapLayer.capabilitiesXML ≠ "" ∨ ∃ lid, Except.ok (k, lid) ∈ arows) →
      ∀ (k : Int) (reg : Region), out'.lookup k = some reg →
        reg.mapLayer.capabilitiesXML ≠ "" := by
  intro arows
  induction arows with
  | nil =>
    intro out out' h hinv k reg hlook
    simp only [joinStage, Except.ok.injEq] at h
    subst h
    rcases hinv k reg hlook with hg | ⟨lid, hmem⟩
    · exact hg
    · simp at hmem
  | cons r rest ih =>
    intro out out' h hinv k reg hlook
    match r with
    | .error e => simp [joinStage] at h
    | .ok (rid, lid0) =>
      simp only [joinStage] at h
      cases hlo : out.lookup rid with
      | none =>
        rw [hlo] at h
        refine ih out out' h ?_ k reg hlook
        intro k' reg' hk'
        rcases hinv k' reg' hk' with hg | ⟨lid', hmem'⟩
        · exact Or.inl hg
        · rcases List.mem_cons.mp hmem' with heq | hmem''
          · exfalso
            have hkr : k' = rid := congrArg Prod.fst (Except.ok.inj heq)
            rw [hkr, hlo] at hk'
            exact Option.noConfusion hk'
          · exact Or.inr ⟨lid', hmem''⟩
      | some prev =>
        rw [hlo] at h
        cases hml : layers.lookup lid0 with
        | none =>
          rw [hml] at h
          refine ih _ out' h ?_ k reg hlook
          intro k' reg' hk'
          by_cases hk : k' = rid
          · subst hk
            rw [AList.lookup_erase] at hk'
            exact Option.noConfusion hk'
          · rw [AList.lookup_erase_ne hk] at hk'
            rcases hinv k' reg' hk' with hg | ⟨lid', hmem'⟩
            · exact Or.inl hg
            · rcases List.mem_cons.mp hmem' with heq | hmem''
              · exact absurd (congrArg Prod.fst (Except.ok.inj heq)) hk
              · exact Or.inr ⟨lid', hmem''⟩
        | some ml =>
          rw [hml] at h
          refine ih _ out' h ?_ k reg hlook
          intro k' reg' hk'
          by_cases hk : k' = rid
          · subst hk
            rw [AList.lookup_insert] at hk'
            have hregeq : reg' = { prev with mapLayer := ml } := (Option.some.inj hk').symm
            subst hregeq
            exact Or.inl (hlayers lid0 ml hml)
          · rw [AList.lookup_insert_ne hk] at hk'
            rcases hinv k' reg' hk' with hg | ⟨lid', hmem'⟩
            · exact Or.inl hg
            · rcases List.mem_cons.mp hmem' with heq | hmem''
              · exact absurd (congrArg Prod.fst (Except.ok.inj heq)) hk
              · exact Or.inr ⟨lid', hmem''⟩

lemma fetched_layer_good (lrows : List LayerRow) (fetch : String → Except Unit String)
    (hfetch : ∀ url xml, fetch url = .ok xml → xml ≠ "") :
    ∀ (lid : Int) (ml : MapLayer), (fetchedLayersOf lrows fetch).lookup lid = some ml →
      ml.capabilitiesXML ≠ "" := by
  intro lid ml h
  rcases fetchStage_lookup fetch (layersOf lrows).entries (layersOf lrows) lid ml h with
    ⟨e, he, hek, xml, hfet, hml⟩ | ⟨hall, hacc⟩
  · subst hml
    exact hfetch _ _ hfet
  · exfalso
    have hmemk : lid ∈ (layersOf lrows).keys := by
      rw [← AList.mem_keys]
      by_contra hno
      rw [← AList.lookup_eq_none] at hno
      rw [hno] at hacc
      exact Option.noConfusion hacc
    obtain ⟨b, hb⟩ := List.mem_keys.mp hmemk
    exact hall ⟨lid, b⟩ hb rfl

/-- C2 counterexample: the published region snapshot can contain a region
whose `MapLayer.CapabilitiesXML` is empty. (a) A region with no
layer-association row is published with the zero-value `MapLayer`
(`CapabilitiesXML = ""`). (b) A region whose layer fetch succeeds with an
empty body is published with `CapabilitiesXML = ""`. Both cycles publish
(`.ok`), contradicting the claimed invariant. -/
theorem c2_empty_capabilities_counterexample :
    (loadRegions dbNoAssoc (fun _ => .error ())).map
        (fun out => (out.lookup 1).map (fun reg => reg.mapLayer.capabilitiesXML)) =
      .ok (some "") ∧
    (loadRegions dbEmptyDoc (fun _ => .ok "")).map
        (fun out => (out.lookup 1).map (fun reg => reg.mapLayer.capabilitiesXML)) =
      .ok (some "") := by decide

/-- C2 (amended): in a published region snapshot, a region one of whose
association rows references a layer that did not survive capability
enrichment has been dropped entirely; and under the two additional
assumptions that the counterexample shows are necessary — every loaded
region has at least one association row, and every successful fetch
returns a non-empty document — every region in the published snapshot
(the map installed by the cycle and returned by `Regions()`) has
non-empty `MapLayer.CapabilitiesXML`. -/
theorem c2_region_snapshot_layers (rrows : List RegionRow) (lrows : List LayerRow)
    (arows : List (Int × Int)) (fetch : String → Except Unit String)
    (st : RepoState) (out : GoMap Region)
    (hload : loadRegions ⟨none, .ok (rrows.map Except.ok), .ok (lrows.map Except.ok),
      .ok (arows.map Except.ok)⟩ fetch = .ok out) :
    (∀ rid lid : Int, (rid, lid) ∈ arows →
      (fetchedLayersOf lrows fetch).lookup lid = none → out.lookup rid = none) ∧
    ((∀ url xml, fetch url = .ok xml → xml ≠ "") →
     (∀ rrow ∈ rrows, ∃ lid, (rrow.id, lid) ∈ arows) →
     ∀ (rid : Int) (reg : Region), out.lookup rid = some reg →
       reg.mapLayer.capabilitiesXML ≠ "") ∧
    regionsQuery (updateRegionsStep st ⟨none, .ok (rrows.map Except.ok),
      .ok (lrows.map Except.ok), .ok (arows.map Except.ok)⟩ fetch).1 = out := by
  have hjoin : joinStage (arows.map Except.ok) (fetchedLayersOf lrows fetch)
      (regionsOf rrows) = .ok out := by
    unfold loadRegions at hload
    dsimp only at hload
    rw [scanRegionRows_all_ok] at hload
    dsimp only at hload
    rw [scanLayerRows_all_ok] at hload
    dsimp only at hload
    exact hload
  refine ⟨?_, ?_, ?_⟩
  · intro rid lid hmem hnone
    exact joinStage_drops_failed (fetchedLayersOf lrows fetch) (arows.map Except.ok)
      (regionsOf rrows) out rid lid hjoin (List.mem_map.mpr ⟨(rid, lid), hmem, rfl⟩) hnone
  · intro hfetch hassoc rid reg hlook
    refine joinStage_good (fetchedLayersOf lrows fetch)
      (fetched_layer_good lrows fetch hfetch) (arows.map Except.ok)
      (regionsOf rrows) out hjoin ?_ rid reg hlook
    intro k reg' hk
    rcases foldl_insert_region_lookup rrows ∅ k reg' hk with ⟨row, hrow, hrowk⟩ | hempty
    · obtain ⟨lid, hlid⟩ := hassoc row hrow
      exact Or.inr ⟨lid, List.mem_map.mpr ⟨(k, lid), hrowk ▸ hlid, rfl⟩⟩
    · rw [AList.lookup_empty] at hempty
      exact Option.noConfusion hempty
  · simp [updateRegionsStep, hload, regionsQuery]

/-- Witness for C2 (amended): one region associated to one layer whose
document fetches successfully and non-empty: the published region carries
that document; and a concrete dropped-region instance. -/
theorem c2_region_snapshot_layers_witness :
    ∃ out, loadRegions dbEmptyDoc (fun _ => .ok "<xml/>") = .ok out ∧
      (∀ (rid : Int) (reg : Region), out.lookup rid = some reg →
        reg.mapLayer.capabilitiesXML ≠ "") := by
  obtain ⟨out, hout⟩ : ∃ out, loadRegions dbEmptyDoc (fun _ => .ok "<xml/>") = .ok out :=
    ⟨_, rfl⟩
  refine ⟨out, hout, ?_⟩
  have h := c2_region_snapshot_layers [rrowNoAssoc] [lrowEmptyDoc] [(1, 5)]
    (fun _ => .ok "<xml/>") emptyState out hout
  exact h.2.1 (fun url xml hx => by
      injection hx with hx'
      rw [← hx']
      decide)
    (fun rrow hr => ⟨5, by
      simp only [List.mem_singleton] at hr
      rw [hr]
      decide⟩)

/-! ### C5: two-stage uniform sampling -/

/-- C5: for a fixed snapshot, `RandomChallenge(nil)` first picks the
region at position `i` of `regionsWithChallenges` — each distinct region
with probability `1/len(regionsWithChallenges)`, independent of its
challenge count — then samples uniformly within that region's list; and
it is **not** uniform over all challenges globally: in the sample
snapshot (region 7 with one challenge, region 9 with two) the single
challenge of region 7 is drawn with probability 1/2 and each challenge
of region 9 with probability 1/4. -/
theorem c5_two_stage_uniform :
    (∀ (st : RepoState) (i j : Nat), i < nRWC st →
      randomChallengeQuery st none i j =
        (let L := (st.challengesByRegion.lookup (chosenRegion st i)).getD []
         if L.length = 0 then .noChallengesAvailable
         else .ok (L.getD j Challenge.zero))) ∧
    (∀ (st : RepoState) (r : Int), st.regionsWithChallenges.Nodup →
      r ∈ st.regionsWithChallenges → regionPickProb st r = 1 / (nRWC st : ℚ)) ∧
    (challengePickProb sampleState sampleChallengeA = 1 / 2 ∧
     challengePickProb sampleState sampleChallengeB = 1 / 4 ∧
     challengePickProb sampleState sampleChallengeC = 1 / 4 ∧
     challengePickProb sampleState sampleChallengeA ≠
       challengePickProb sampleState sampleChallengeB) := by
  refine ⟨?_, ?_, ?_⟩
  · intro st i j hi
    have hne : ¬ st.regionsWithChallenges.length = 0 := by
      unfold nRWC at hi
      omega
    simp only [randomChallengeQuery, chosenRegion]
    rw [if_neg hne]
  · intro st r hnodup hmem
    unfold regionPickProb
    rw [List.count_eq_one_of_mem hnodup hmem]
    norm_num
  · have hr0 : chosenRegion sampleState 0 = 7 := by decide
    have hr1 : chosenRegion sampleState 1 = 9 := by decide
    have h7 : sampleState.challengesByRegion.lookup 7 = some [sampleChallengeA] := by decide
    have h9 : sampleState.challengesByRegion.lookup 9 =
        some [sampleChallengeB, sampleChallengeC] := by decide
    have h2 : List.range (nRWC sampleState) = [0, 1] := by decide
    have hnn : nRWC sampleState = 2 := by decide
    have hA : challengePickProb sampleState sampleChallengeA = 1 / 2 := by
      have f0 : ((List.range 1).filter
          (fun j => randomChallengeQuery sampleState none 0 j = .ok sampleChallengeA)).length =
            1 := by decide
      have f1 : ((List.range 2).filter
          (fun j => randomChallengeQuery sampleState none 1 j = .ok sampleChallengeA)).length =
            0 := by decide
      unfold challengePickProb
      rw [h2, hnn]
      simp only [List.map_cons, List.map_nil, List.sum_cons, List.sum_nil]
      rw [hr0, hr1, h7, h9]
      simp only [Option.getD_some, List.length_cons, List.length_nil]
      norm_num
      rw [f0, f1]
      norm_num
    have hB : challengePickProb sampleState sampleChallengeB = 1 / 4 := by
      have f0 : ((List.range 1).filter
          (fun j => randomChallengeQuery sampleState none 0 j = .ok sampleChallengeB)).length =
            0 := by decide
      have f1 : ((List.range 2).filter
          (fun j => randomChallengeQuery sampleState none 1 j = .ok sampleChallengeB)).length =
            1 := by decide
      unfold challengePickProb
      rw [h2, hnn]
      simp only [List.map_cons, List.map_nil, List.sum_cons, List.sum_nil]
      rw [hr0, hr1, h7, h9]
      simp only [Option.getD_some, List.length_cons, List.length_nil]
      norm_num
      rw [f0, f1]
      norm_num
    have hC : challengePickProb sampleState sampleChallengeC = 1 / 4 := by
      have f0 : ((List.range 1).filter
          (fun j => randomChallengeQuery sampleState none 0 j = .ok sampleChallengeC)).length =
            0 := by decide
      have f1 : ((List.range 2).filter
          (fun j => randomChallengeQuery sampleState none 1 j = .ok sampleChallengeC)).length =
            1 := by decide
      unfold challengePickProb
      rw [h2, hnn]
      simp only [List.map_cons, List.map_nil, List.sum_cons, List.sum_nil]
      rw [hr0, hr1, h7, h9]
      simp only [Option.getD_some, List.length_cons, List.length_nil]
      norm_num
      rw [f0, f1]
      norm_num
    exact ⟨hA, hB, hC, by rw [hA, hB]; norm_num⟩

/-- Witness for C5 at the sample snapshot: region 7 has pick probability
`1/len` and the first stage picks position 0's region. -/
theorem c5_two_stage_uniform_witness :
    regionPickProb sampleState 7 = 1 / (nRWC sampleState : ℚ) ∧
    randomChallengeQuery sampleState none 0 0 =
      (let L := (sampleState.challengesByRegion.lookup (chosenRegion sampleState 0)).getD []
       if L.length = 0 then .noChallengesAvailable
       else .ok (L.getD 0 Challenge.zero)) :=
  ⟨c5_two_stage_uniform.2.1 sampleState 7 (by decide) (by decide),
   c5_two_stage_uniform.1 sampleState 0 0 (by decide)⟩

/-! ### C8: capability fetch attempt and retry semantics -/

/-- C8 counterexample: an HTTP response with the 2xx status 201 and a
valid UTF-8 body does **not** make the attempt succeed — the code
requires `resp.StatusCode == http.StatusOK`, i.e. exactly 200. -/
theorem c8_status_2xx_counterexample :
    attemptFetch (.ok ⟨201, .ok [60]⟩) = .error (.badStatus 201 (.ok [60])) ∧
    utf8Valid [60] = true := by decide

/-- C8 (amended): a single fetch attempt succeeds exactly when the
response arrives with status exactly 200 (not any 2xx), the body reads
successfully and is valid UTF-8, in which case the body is returned
verbatim; a non-200 response yields a retryable error capturing the body
read outcome; and the retry loop returns the first success, or, once its
(elapsed-time, here attempt-count) budget is exhausted, the **last**
error. -/
theorem c8_fetch_attempt_semantics :
    (∀ (resp : Except NetError HTTPResponse) (b : List Nat),
      attemptFetch resp = .ok b ↔ resp = .ok ⟨200, .ok b⟩ ∧ utf8Valid b = true) ∧
    (∀ r : HTTPResponse, r.statusCode ≠ 200 →
      attemptFetch (.ok r) = .error (.badStatus r.statusCode r.body)) ∧
    (∀ (responses : Nat → Except NetError HTTPResponse) (fuel : Nat)
      (es : Nat → FetchError),
      (∀ k, attemptFetch (responses k) = .error (es k)) →
      fetchCapabilitiesRetry responses fuel = .error (es fuel)) ∧
    (∀ (responses : Nat → Except NetError HTTPResponse) (fuel : Nat) (b : List Nat),
      attemptFetch (responses 0) = .ok b →
      fetchCapabilitiesRetry responses fuel = .ok b) := by
  have hlast : ∀ (attempt : Nat → Except FetchError (List Nat)) (es : Nat → FetchError),
      (∀ k, attempt k = .error (es k)) →
      ∀ (fuel k : Nat), backoffRetry attempt k fuel = .error (es (k + fuel)) := by
    intro attempt es hres fuel
    induction fuel with
    | zero =>
      intro k
      simp [backoffRetry, hres k]
    | succ fuel' ih =>
      intro k
      rw [backoffRetry, hres k]
      dsimp only
      rw [ih (k + 1), show k + 1 + fuel' = k + (fuel' + 1) from by omega]
  refine ⟨?_, ?_, ?_, ?_⟩
  · intro resp b
    constructor
    · intro h
      match resp with
      | .error e => simp [attemptFetch] at h
      | .ok r =>
        simp only [attemptFetch] at h
        by_cases hs : r.statusCode = 200
        · rw [if_neg (by omega)] at h
          match hb : r.body with
          | .error e =>
            rw [hb] at h
            dsimp only at h
            exact Except.noConfusion h
          | .ok xml =>
            rw [hb] at h
            dsimp only at h
            by_cases hu : utf8Valid xml = true
            · rw [if_pos hu] at h
              have hxb : xml = b := Except.ok.inj h
              subst hxb
              refine ⟨?_, hu⟩
              cases r with
              | mk sc bd =>
                simp only at hs hb
                rw [hs, hb]
            · rw [if_neg hu] at h
              exact Except.noConfusion h
        · rw [if_pos hs] at h
          exact Except.noConfusion h
    · rintro ⟨rfl, hu⟩
      simp [attemptFetch, hu]
  · intro r hs
    simp [attemptFetch, hs]
  · intro responses fuel es hres
    unfold fetchCapabilitiesRetry
    rw [hlast (fun k => attemptFetch (responses k)) es hres fuel 0, Nat.zero_add]
  · intro responses fuel b h
    unfold fetchCapabilitiesRetry
    rw [backoffRetry, h]

/-- Witness for C8 (amended): a 200 response with body `[60]` succeeds,
a network failure on every attempt surfaces the last error, and
a first-attempt success returns immediately. -/
theorem c8_fetch_attempt_semantics_witness :
    attemptFetch (.ok ⟨200, .ok [60]⟩) = .ok [60] ∧
    attemptFetch (.ok ⟨404, .ok [60]⟩) = .error (.badStatus 404 (.ok [60])) ∧
    fetchCapabilitiesRetry (fun _ => .error ⟨"connection refused"⟩) 3 =
      .error (.network ⟨"connection refused"⟩) ∧
    fetchCapabilitiesRetry (fun _ => .ok ⟨200, .ok [60]⟩) 5 = .ok [60] :=
  ⟨(c8_fetch_attempt_semantics.1 (.ok ⟨200, .ok [60]⟩) [60]).mpr ⟨rfl, by decide⟩,
   c8_fetch_attempt_semantics.2.1 ⟨404, .ok [60]⟩ (by decide),
   c8_fetch_attempt_semantics.2.2.1 (fun _ => .error ⟨"connection refused"⟩) 3
     (fun _ => .network ⟨"connection refused"⟩) (fun k => rfl),
   c8_fetch_attempt_semantics.2.2.2 (fun _ => .ok ⟨200, .ok [60]⟩) 5 [60] (by decide)⟩

end ContourGuessr
